import Mathlib

/-!
Shallow embedding of `worker/storageprovisioner/filesystem_ops.go`.

The four batch executors (`createFilesystems`, `attachFilesystems`,
`detachFilesystems`, `removeFilesystems`) and their helpers are translated
from the Go source.  External collaborators (the provider registry, the
provider filesystem sources, and the controller facade) are interface
values in Go; here they are function-valued fields of `Context`, and the
side effects of a pass (provider calls, status flush, reschedule flush,
persistence calls, log lines) are recorded in an explicit `Event` trace.

Go maps keyed by strings are modelled as association lists in first-insertion
order; Go slices as `List`; Go `error` values as `Option String`
(`none` = nil) or `Except String` for fallible calls; a Go panic
(nil-interface method call, index out of range) is modelled as an
`Except.error` whose message starts with `panic:`.
-/

namespace StorageProvisioner

/-- Rendering of `names.FilesystemTag.String()`: tags are stored as their id. -/
def filesystemTagString (id : String) : String := "filesystem-" ++ id

/-- Rendering of `names.MachineTag.String()`. -/
def machineTagString (id : String) : String := "machine-" ++ id

/-- Rendering of `names.VolumeTag.String()`. -/
def volumeTagString (id : String) : String := "volume-" ++ id

/-- Model of Go `filepath.Join` for the clean, relative second components the
worker passes it (a storage directory joined with a tag id). -/
def filepathJoin (a b : String) : String :=
  if a = "" then b else if b = "" then a else a ++ "/" ++ b

/-- `storage.FilesystemParams`: `Volume` is a `names.VolumeTag`, whose Go zero
value is rendered here as the empty string. -/
structure FilesystemParams where
  tag : String
  provider : String
  volume : String
  size : Nat
  deriving Repr, DecidableEq

/-- `storage.Filesystem` (the fields `filesystem_ops.go` reads). -/
structure Filesystem where
  tag : String
  volume : String
  filesystemId : String
  size : Nat
  deriving Repr, DecidableEq

/-- `storage.FilesystemAttachmentParams` (the fields `filesystem_ops.go` reads);
`filesystem` and `machine` hold the tag ids. -/
structure FilesystemAttachmentParams where
  provider : String
  machine : String
  filesystem : String
  path : String
  readOnly : Bool
  deriving Repr, DecidableEq

/-- `storage.FilesystemAttachment`. -/
structure FilesystemAttachment where
  filesystem : String
  machine : String
  path : String
  readOnly : Bool
  deriving Repr, DecidableEq

/-- `params.MachineStorageId`. -/
structure MachineStorageId where
  machineTag : String
  attachmentTag : String
  deriving Repr, DecidableEq

/-- `params.EntityStatusArgs`. -/
structure EntityStatusArgs where
  tag : String
  status : String
  info : String
  deriving Repr, DecidableEq

/-- `params.FilesystemInfo`. -/
structure ParamsFilesystemInfo where
  filesystemId : String
  pool : String
  size : Nat
  deriving Repr, DecidableEq

/-- `params.Filesystem`. -/
structure ParamsFilesystem where
  filesystemTag : String
  volumeTag : String
  info : ParamsFilesystemInfo
  deriving Repr, DecidableEq

/-- `params.FilesystemAttachmentInfo`. -/
structure ParamsFilesystemAttachmentInfo where
  mountPoint : String
  readOnly : Bool
  deriving Repr, DecidableEq

/-- `params.FilesystemAttachment`. -/
structure ParamsFilesystemAttachment where
  filesystemTag : String
  machineTag : String
  info : ParamsFilesystemAttachmentInfo
  deriving Repr, DecidableEq

/-- `params.RemoveFilesystemParams` as returned by the controller facade's
`GetRemoveParams` bulk call. -/
structure RemoveFilesystemParams where
  provider : String
  filesystemId : String
  destroy : Bool
  deriving Repr, DecidableEq

/-- Go zero value of `params.RemoveFilesystemParams`. -/
def zeroRemoveFilesystemParams : RemoveFilesystemParams :=
  { provider := "", filesystemId := "", destroy := false }

/-- Go zero value of `storage.FilesystemParams`. -/
def zeroFilesystemParams : FilesystemParams :=
  { tag := "", provider := "", volume := "", size := 0 }

/-- One element of the result of `storage.FilesystemSource.CreateFilesystems`:
a `*storage.Filesystem` (nil modelled as `none`) and an error. -/
structure CreateFilesystemsResult where
  filesystem : Option Filesystem
  error : Option String
  deriving Repr, DecidableEq

/-- One element of the result of `storage.FilesystemSource.AttachFilesystems`. -/
structure AttachFilesystemsResult where
  filesystemAttachment : Option FilesystemAttachment
  error : Option String
  deriving Repr, DecidableEq

/-- `storage.FilesystemSource`: the provider's bulk storage API, an interface
in Go, modelled as a record of functions.  Bulk calls return a top-level
transport error (`Except.error`) or per-entity results. -/
structure FilesystemSource where
  validateFilesystemParams : FilesystemParams → Option String
  createFilesystems : List FilesystemParams → Except String (List CreateFilesystemsResult)
  attachFilesystems : List FilesystemAttachmentParams → Except String (List AttachFilesystemsResult)
  detachFilesystems : List FilesystemAttachmentParams → Except String (List (Option String))
  destroyFilesystems : List String → Except String (List (Option String))
  releaseFilesystems : List String → Except String (List (Option String))

/-- Modelled from the spec: the message carried by `errNonDynamic`, the
sentinel error returned by the `filesystemSource` helper (not under `src/`)
when the provider registry reports the provider cannot create filesystems
dynamically. -/
def errNonDynamicMsg : String := "filesystem is not dynamic"

/-- Modelled from the spec: outcome of the `filesystemSource` helper (not
under `src/`), which asks the provider registry to instantiate a dynamic
source for a provider type: a dynamic source, the `errNonDynamic` sentinel,
or another resolution error. -/
inductive SourceResolution where
  | dynamic (source : FilesystemSource)
  | nonDynamic
  | failed (msg : String)

/-- Association-list lookup, modelling Go map indexing with comma-ok. -/
def lookupA {α : Type} (m : List (String × α)) (k : String) : Option α :=
  match m with
  | [] => none
  | (k', v) :: rest => if k' = k then some v else lookupA rest k

/-- Go `_, ok := m[k]`. -/
def containsA {α : Type} (m : List (String × α)) (k : String) : Bool :=
  (lookupA m k).isSome

/-- Go `m[k] = v` (replace if present, else append). -/
def insertA {α : Type} (m : List (String × α)) (k : String) (v : α) : List (String × α) :=
  match m with
  | [] => [(k, v)]
  | (k', v') :: rest => if k' = k then (k, v) :: rest else (k', v') :: insertA rest k v

/-- Go `m[k] = append(m[k], v)` for a map of slices. -/
def appendAt {α : Type} (m : List (String × List α)) (k : String) (v : α) :
    List (String × List α) :=
  match m with
  | [] => [(k, [v])]
  | (k', vs) :: rest =>
    if k' = k then (k', vs ++ [v]) :: rest else (k', vs) :: appendAt rest k v

/-- Go map indexing without comma-ok on a map holding nilable interface
values: a missing key and a nil value both read as nil. -/
def joinLookup (m : List (String × Option FilesystemSource)) (k : String) :
    Option FilesystemSource :=
  match lookupA m k with
  | some v => v
  | none => none

/-- First loop of `filesystemParamsBySource`: resolve one source per provider
name, in first-occurrence order.  A parameter with a non-empty backing volume
routes to the managed filesystem source; otherwise the registry is consulted;
`errNonDynamic` records the source as nil; any other error aborts. -/
def buildFilesystemSources (managedFilesystemSource : FilesystemSource)
    (registry : String → SourceResolution) :
    List FilesystemParams → List (String × Option FilesystemSource) →
    Except String (List (String × Option FilesystemSource))
  | [], acc => .ok acc
  | p :: rest, acc =>
    if containsA acc p.provider then
      buildFilesystemSources managedFilesystemSource registry rest acc
    else if p.volume ≠ "" then
      buildFilesystemSources managedFilesystemSource registry rest
        (acc ++ [(p.provider, some managedFilesystemSource)])
    else
      match registry p.provider with
      | SourceResolution.dynamic s =>
        buildFilesystemSources managedFilesystemSource registry rest
          (acc ++ [(p.provider, some s)])
      | SourceResolution.nonDynamic =>
        buildFilesystemSources managedFilesystemSource registry rest
          (acc ++ [(p.provider, none)])
      | SourceResolution.failed e =>
        .error ("getting filesystem source: " ++ e)

/-- Second loop of `filesystemParamsBySource`: group parameters by provider
name, dropping parameters whose resolved source is nil (to be created by the
machine-provisioner). -/
def partitionBySources (sources : List (String × Option FilesystemSource)) :
    List FilesystemParams → List (String × List FilesystemParams) → List (String × List FilesystemParams)
  | [], acc => acc
  | p :: rest, acc =>
    match joinLookup sources p.provider with
    | some _ => partitionBySources sources rest (appendAt acc p.provider p)
    | none => partitionBySources sources rest acc

/-- `filesystemParamsBySource`: separates the filesystem parameters by
filesystem source. -/
def filesystemParamsBySource (baseStorageDir : String)
    (ps : List FilesystemParams)
    (managedFilesystemSource : FilesystemSource)
    (registry : String → SourceResolution) :
    Except String (List (String × List FilesystemParams) × List (String × Option FilesystemSource)) := do
  let _ := baseStorageDir
  let sources ← buildFilesystemSources managedFilesystemSource registry ps []
  .ok (partitionBySources sources ps [], sources)

/-- `filesystemAttachmentParamsBySource` loop: every parameter is appended to
its provider's partition; sources resolve per provider name at first
occurrence.  A filesystem missing from the local cache, or one with a
non-empty backing volume, routes to the managed source; otherwise the
registry is consulted and any resolution error (including `errNonDynamic`)
aborts. -/
def buildAttachBySource (filesystems : List (String × Filesystem))
    (managedFilesystemSource : FilesystemSource)
    (registry : String → SourceResolution) :
    List FilesystemAttachmentParams →
    List (String × List FilesystemAttachmentParams) →
    List (String × Option FilesystemSource) →
    Except String (List (String × List FilesystemAttachmentParams) × List (String × Option FilesystemSource))
  | [], bySource, sources => .ok (bySource, sources)
  | p :: rest, bySource, sources =>
    let bySource2 := appendAt bySource p.provider p
    if containsA sources p.provider then
      buildAttachBySource filesystems managedFilesystemSource registry rest bySource2 sources
    else
      match lookupA filesystems p.filesystem with
      | none =>
        buildAttachBySource filesystems managedFilesystemSource registry rest bySource2
          (sources ++ [(p.provider, some managedFilesystemSource)])
      | some filesystem =>
        if filesystem.volume ≠ "" then
          buildAttachBySource filesystems managedFilesystemSource registry rest bySource2
            (sources ++ [(p.provider, some managedFilesystemSource)])
        else
          match registry p.provider with
          | SourceResolution.dynamic s =>
            buildAttachBySource filesystems managedFilesystemSource registry rest bySource2
              (sources ++ [(p.provider, some s)])
          | SourceResolution.nonDynamic =>
            .error ("getting filesystem source: " ++ errNonDynamicMsg)
          | SourceResolution.failed e =>
            .error ("getting filesystem source: " ++ e)

/-- `filesystemAttachmentParamsBySource`: separates the filesystem attachment
parameters by filesystem source. -/
def filesystemAttachmentParamsBySource (baseStorageDir : String)
    (filesystemAttachmentParams : List FilesystemAttachmentParams)
    (filesystems : List (String × Filesystem))
    (managedFilesystemSource : FilesystemSource)
    (registry : String → SourceResolution) :
    Except String (List (String × List FilesystemAttachmentParams) × List (String × Option FilesystemSource)) :=
  let _ := baseStorageDir
  buildAttachBySource filesystems managedFilesystemSource registry
    filesystemAttachmentParams [] []

/-- `validateFilesystemParams`: validates a collection of filesystem
parameters, returning the valid ones (in order) and the per-parameter
errors. -/
def validateFilesystemParams (filesystemSource : FilesystemSource) :
    List FilesystemParams → List FilesystemParams × List (Option String)
  | [] => ([], [])
  | p :: ps =>
    let rest := validateFilesystemParams filesystemSource ps
    match filesystemSource.validateFilesystemParams p with
    | none => (p :: rest.1, none :: rest.2)
    | some e => (rest.1, some e :: rest.2)

/-- `partitionRemoveFilesystemParams`, on the zipped tag/params pairs (the Go
loop indexes `removeTags` positionally; the call site passes equal-length
slices). -/
def partitionRemoveGo : List (String × RemoveFilesystemParams) →
    List String × List String × List String × List String
  | [] => ([], [], [], [])
  | (tag, args) :: rest =>
    let (dt, di, rt, ri) := partitionRemoveGo rest
    if args.destroy then (tag :: dt, args.filesystemId :: di, rt, ri)
    else (dt, di, tag :: rt, args.filesystemId :: ri)

/-- `partitionRemoveFilesystemParams`: splits removal requests into the
destroy sub-batch and the release sub-batch by the per-entity destroy flag. -/
def partitionRemoveFilesystemParams (removeTags : List String)
    (removeParams : List RemoveFilesystemParams) :
    List String × List String × List String × List String :=
  partitionRemoveGo (removeTags.zip removeParams)

/-- Observable side effects of one executor pass, in program order. -/
inductive Event where
  | createCall (sourceName : String) (ps : List FilesystemParams)
  | attachCall (sourceName : String) (ps : List FilesystemAttachmentParams)
  | detachCall (sourceName : String) (ps : List FilesystemAttachmentParams)
  | destroyCall (sourceName : String) (ids : List String)
  | releaseCall (sourceName : String) (ids : List String)
  | scheduleOpsFs (keys : List String)
  | scheduleOpsAttach (keys : List MachineStorageId)
  | setStatusCall (statuses : List EntityStatusArgs)
  | setFilesystemInfoCall (filesystems : List ParamsFilesystem)
  | setFilesystemAttachmentInfoCall (attachments : List ParamsFilesystemAttachment)
  | removeEntitiesCall (tags : List String)
  | removeAttachmentsCall (ids : List MachineStorageId)
  | removePendingFilesystemAttachmentEv (id : MachineStorageId)
  | logErr (msg : String)
  | logCritical (sourceName : String)
  deriving Repr, DecidableEq

/-- True for the bulk provider-source calls. -/
def Event.isProviderCall : Event → Bool
  | Event.createCall _ _ => true
  | Event.attachCall _ _ => true
  | Event.detachCall _ _ => true
  | Event.destroyCall _ _ => true
  | Event.releaseCall _ _ => true
  | _ => false

/-- True for the `scheduleOperations` flush. -/
def Event.isScheduleEv : Event → Bool
  | Event.scheduleOpsFs _ => true
  | Event.scheduleOpsAttach _ => true
  | _ => false

/-- True for the `setStatus` flush. -/
def Event.isSetStatusEv : Event → Bool
  | Event.setStatusCall _ => true
  | _ => false

/-- The worker context and its external collaborators: the storage directory
and provider registry from the config, the managed filesystem source, the
local caches, the CAAS-model flag, and the controller facade's bulk calls
(`SetFilesystemInfo`, `SetFilesystemAttachmentInfo`, `GetRemoveParams`,
`Remove` for filesystems and for attachments). -/
structure Context where
  storageDir : String
  registry : String → SourceResolution
  managedFilesystemSource : FilesystemSource
  filesystems : List (String × Filesystem)
  filesystemAttachments : List (MachineStorageId × FilesystemAttachment)
  isCAASModel : Bool
  setFilesystemInfoApi : List ParamsFilesystem → Except String (List (Option String))
  setFilesystemAttachmentInfoApi : List ParamsFilesystemAttachment → Except String (List (Option String))
  removeParamsApi : List String → Except String (List RemoveFilesystemParams)
  removeApi : List String → Option String
  removeAttachmentsApi : List MachineStorageId → Option String

/-- `createFilesystemOp` (backoff state omitted; the scheduler key is the
filesystem tag). -/
structure CreateFilesystemOp where
  args : FilesystemParams
  deriving Repr, DecidableEq

/-- `attachFilesystemOp`. -/
structure AttachFilesystemOp where
  args : FilesystemAttachmentParams
  deriving Repr, DecidableEq

/-- `detachFilesystemOp`. -/
structure DetachFilesystemOp where
  args : FilesystemAttachmentParams
  deriving Repr, DecidableEq

/-- `removeFilesystemOp`. -/
structure RemoveFilesystemOp where
  tag : String
  deriving Repr, DecidableEq

/-- `filesystemsFromStorage`. -/
def filesystemsFromStorage (fss : List Filesystem) : List ParamsFilesystem :=
  fss.map fun f =>
    { filesystemTag := filesystemTagString f.tag,
      volumeTag := if f.volume ≠ "" then volumeTagString f.volume else "",
      info := { filesystemId := f.filesystemId, pool := "", size := f.size } }

/-- `filesystemAttachmentsFromStorage`. -/
def filesystemAttachmentsFromStorage (fas : List FilesystemAttachment) :
    List ParamsFilesystemAttachment :=
  fas.map fun f =>
    { filesystemTag := filesystemTagString f.filesystem,
      machineTag := machineTagString f.machine,
      info := { mountPoint := f.path, readOnly := f.readOnly } }

/-- Modelled from the spec: `updateFilesystem` (not under `src/`) merges a
confirmed filesystem into the worker's local cache. -/
def updateFilesystem (cache : List (String × Filesystem)) (v : Filesystem) :
    List (String × Filesystem) :=
  insertA cache v.tag v

/-- Statuses emitted for validation failures in `createFilesystems`, one
`error` record per parameter whose validation error is non-nil, in input
order. -/
def validationStatuses : List FilesystemParams → List (Option String) → List EntityStatusArgs
  | p :: ps, some e :: es =>
    { tag := filesystemTagString p.tag, status := "error", info := e } ::
      validationStatuses ps es
  | _ :: ps, none :: es => validationStatuses ps es
  | _, _ => []

/-- Per-entity result interpretation loop of `createFilesystems`: a per-entity
error keeps status `pending` with the error message and reschedules the
operation's key (the tag); a success records status `attaching` and
dereferences the result's filesystem pointer. -/
def interpretCreateResults : List FilesystemParams → List CreateFilesystemsResult →
    Except String (List EntityStatusArgs × List String × List Filesystem)
  | _, [] => .ok ([], [], [])
  | p :: ps, r :: rs => do
    let (st, rk, fss) ← interpretCreateResults ps rs
    match r.error with
    | some e =>
      .ok ({ tag := filesystemTagString p.tag, status := "pending", info := e } :: st,
           p.tag :: rk, fss)
    | none =>
      match r.filesystem with
      | some f =>
        .ok ({ tag := filesystemTagString p.tag, status := "attaching", info := "" } :: st,
             rk, f :: fss)
      | none => .error "panic: nil filesystem in create result"
  | [], _ :: _ => .error "panic: index out of range"

/-- Body of the per-source loop of `createFilesystems`: validate, emit
validation statuses, bulk-create the valid parameters, interpret per-entity
results. -/
def createProcessSource (sourceName : String)
    (filesystemSource : Option FilesystemSource) (fsps : List FilesystemParams) :
    Except String (List Event × List EntityStatusArgs × List String × List Filesystem) :=
  match filesystemSource with
  | none => .error ("panic: nil filesystem source for " ++ sourceName)
  | some src =>
    let valid := (validateFilesystemParams src fsps).1
    let valStatuses := validationStatuses fsps (validateFilesystemParams src fsps).2
    if valid.isEmpty then .ok ([], valStatuses, [], [])
    else
      match src.createFilesystems valid with
      | .error e =>
        .error ("creating filesystems from source \"" ++ sourceName ++ "\": " ++ e)
      | .ok results => do
        let (st, rk, fss) ← interpretCreateResults valid results
        .ok ([Event.createCall sourceName valid], valStatuses ++ st, rk, fss)

/-- The per-source loop of `createFilesystems`, accumulating trace, statuses,
reschedule keys and created filesystems across the partition map. -/
def createLoop (sources : List (String × Option FilesystemSource)) :
    List (String × List FilesystemParams) →
    Except String (List Event × List EntityStatusArgs × List String × List Filesystem)
  | [] => .ok ([], [], [], [])
  | (sourceName, fsps) :: rest => do
    let (tr1, st1, rk1, fs1) ← createProcessSource sourceName (joinLookup sources sourceName) fsps
    let (tr2, st2, rk2, fs2) ← createLoop sources rest
    .ok (tr1 ++ tr2, st1 ++ st2, rk1 ++ rk2, fs1 ++ fs2)

/-- Per-entity logging loop over the `SetFilesystemInfo` error results: a
non-nil per-entity error is logged against the positionally matching
filesystem. -/
def logPublishErrors : List Filesystem → List (Option String) → Except String (List Event)
  | _, [] => .ok []
  | f :: fss, r :: rs => do
    let tr ← logPublishErrors fss rs
    match r with
    | some e =>
      .ok (Event.logErr ("publishing filesystem " ++ f.tag ++ " to state: " ++ e) :: tr)
    | none => .ok tr
  | [], _ :: _ => .error "panic: index out of range"

/-- Persistence tail of `createFilesystems`: nothing to do for an empty list;
otherwise one bulk `SetFilesystemInfo` call, per-entity errors logged (not
fatal), and every created filesystem merged into the local cache. -/
def publishCreatedFilesystems (ctx : Context) (filesystems : List Filesystem) :
    Except String (List Event × List (String × Filesystem)) :=
  if filesystems.isEmpty then .ok ([], ctx.filesystems)
  else
    match ctx.setFilesystemInfoApi (filesystemsFromStorage filesystems) with
    | .error e => .error ("publishing filesystems to state: " ++ e)
    | .ok errorResults => do
      let logTr ← logPublishErrors filesystems errorResults
      .ok (Event.setFilesystemInfoCall (filesystemsFromStorage filesystems) :: logTr,
           filesystems.foldl updateFilesystem ctx.filesystems)

/-- Result of a `createFilesystems` pass. -/
structure CreateExecResult where
  trace : List Event
  statuses : List EntityStatusArgs
  reschedule : List String
  filesystems : List Filesystem
  cache : List (String × Filesystem)
  deriving Repr, DecidableEq

/-- `createFilesystems`: creates filesystems with the specified parameters. -/
def createFilesystems (ctx : Context) (ops : List CreateFilesystemOp) :
    Except String CreateExecResult := do
  let filesystemParams := ops.map (·.args)
  let pair ← filesystemParamsBySource ctx.storageDir filesystemParams
    ctx.managedFilesystemSource ctx.registry
  let (tr, statuses, reschedule, filesystems) ← createLoop pair.2 pair.1
  let (ptr, cache) ← publishCreatedFilesystems ctx filesystems
  .ok { trace := tr ++ [Event.scheduleOpsFs reschedule, Event.setStatusCall statuses] ++ ptr,
        statuses := statuses, reschedule := reschedule,
        filesystems := filesystems, cache := cache }

/-- The `MachineStorageId` key of an attachment parameter, as built by the
executors (`params.MachineStorageId` with rendered tags). -/
def attachmentId (p : FilesystemAttachmentParams) : MachineStorageId :=
  { machineTag := machineTagString p.machine,
    attachmentTag := filesystemTagString p.filesystem }

/-- Parameter collection loop of `attachFilesystems`: an empty mount path is
replaced by the storage directory joined with the filesystem tag's id. -/
def attachArgs (storageDir : String) (ops : List AttachFilesystemOp) :
    List FilesystemAttachmentParams :=
  ops.map fun op =>
    if op.args.path = "" then
      { op.args with path := filepathJoin storageDir op.args.filesystem }
    else op.args

/-- Per-entity result interpretation loop of `attachFilesystems`: a per-entity
error keeps status `attaching` with the error message and reschedules the
attachment's id; a success records status `attached` and dereferences the
result's attachment pointer. -/
def interpretAttachResults : List FilesystemAttachmentParams →
    List AttachFilesystemsResult →
    Except String (List EntityStatusArgs × List MachineStorageId × List FilesystemAttachment)
  | _, [] => .ok ([], [], [])
  | p :: ps, r :: rs => do
    let (st, rk, fas) ← interpretAttachResults ps rs
    match r.error with
    | some e =>
      .ok ({ tag := filesystemTagString p.filesystem, status := "attaching", info := e } :: st,
           attachmentId p :: rk, fas)
    | none =>
      match r.filesystemAttachment with
      | some a =>
        .ok ({ tag := filesystemTagString p.filesystem, status := "attached", info := "" } :: st,
             rk, a :: fas)
      | none => .error "panic: nil filesystem attachment in attach result"
  | [], _ :: _ => .error "panic: index out of range"

/-- Body of the per-source loop of `attachFilesystems`. -/
def attachProcessSource (sourceName : String)
    (filesystemSource : Option FilesystemSource)
    (aps : List FilesystemAttachmentParams) :
    Except String (List Event × List EntityStatusArgs × List MachineStorageId × List FilesystemAttachment) :=
  match filesystemSource with
  | none => .error ("panic: nil filesystem source for " ++ sourceName)
  | some src =>
    match src.attachFilesystems aps with
    | .error e =>
      .error ("attaching filesystems from source \"" ++ sourceName ++ "\": " ++ e)
    | .ok results => do
      let (st, rk, fas) ← interpretAttachResults aps results
      .ok ([Event.attachCall sourceName aps], st, rk, fas)

/-- The per-source loop of `attachFilesystems`. -/
def attachLoop (sources : List (String × Option FilesystemSource)) :
    List (String × List FilesystemAttachmentParams) →
    Except String (List Event × List EntityStatusArgs × List MachineStorageId × List FilesystemAttachment)
  | [] => .ok ([], [], [], [])
  | (sourceName, aps) :: rest => do
    let (tr1, st1, rk1, fa1) ← attachProcessSource sourceName (joinLookup sources sourceName) aps
    let (tr2, st2, rk2, fa2) ← attachLoop sources rest
    .ok (tr1 ++ tr2, st1 ++ st2, rk1 ++ rk2, fa1 ++ fa2)

/-- `insertMSI`: Go `m[id] = v` for the attachment cache. -/
def insertMSI (m : List (MachineStorageId × FilesystemAttachment))
    (k : MachineStorageId) (v : FilesystemAttachment) :
    List (MachineStorageId × FilesystemAttachment) :=
  match m with
  | [] => [(k, v)]
  | (k', v') :: rest => if k' = k then (k, v) :: rest else (k', v') :: insertMSI rest k v

/-- Per-entity recording loop over the `SetFilesystemAttachmentInfo` error
results: the first non-nil per-entity error aborts with an annotated error; a
nil result records the attachment in the local cache and clears its pending
marker. -/
def recordAttachments (cache : List (MachineStorageId × FilesystemAttachment)) :
    List FilesystemAttachment → List (Option String) →
    Except String (List Event × List (MachineStorageId × FilesystemAttachment))
  | _, [] => .ok ([], cache)
  | a :: fas, r :: rs =>
    match r with
    | some e =>
      .error ("publishing attachment of " ++ filesystemTagString a.filesystem ++
              " to " ++ machineTagString a.machine ++ " to state: " ++ e)
    | none =>
      let id : MachineStorageId :=
        { machineTag := machineTagString a.machine,
          attachmentTag := filesystemTagString a.filesystem }
      match recordAttachments (insertMSI cache id a) fas rs with
      | .error e => .error e
      | .ok (tr, cache2) =>
        .ok (Event.removePendingFilesystemAttachmentEv id :: tr, cache2)
  | [], _ :: _ => .error "panic: index out of range"

/-- `setFilesystemAttachmentInfo`: nothing to do for an empty list; otherwise
one bulk `SetFilesystemAttachmentInfo` call, each per-entity error fatal, each
success recorded in the attachment cache. -/
def setFilesystemAttachmentInfo (ctx : Context)
    (filesystemAttachments : List FilesystemAttachment) :
    Except String (List Event × List (MachineStorageId × FilesystemAttachment)) :=
  if filesystemAttachments.isEmpty then .ok ([], ctx.filesystemAttachments)
  else
    match ctx.setFilesystemAttachmentInfoApi
        (filesystemAttachmentsFromStorage filesystemAttachments) with
    | .error e => .error ("publishing filesystems to state: " ++ e)
    | .ok errorResults => do
      let (tr, cache) ← recordAttachments ctx.filesystemAttachments
        filesystemAttachments errorResults
      .ok (Event.setFilesystemAttachmentInfoCall
             (filesystemAttachmentsFromStorage filesystemAttachments) :: tr, cache)

/-- Result of an `attachFilesystems` pass. -/
structure AttachExecResult where
  trace : List Event
  statuses : List EntityStatusArgs
  reschedule : List MachineStorageId
  filesystemAttachments : List FilesystemAttachment
  attachmentCache : List (MachineStorageId × FilesystemAttachment)
  deriving Repr, DecidableEq

/-- `attachFilesystems`: creates filesystem attachments with the specified
parameters. -/
def attachFilesystems (ctx : Context) (ops : List AttachFilesystemOp) :
    Except String AttachExecResult := do
  let aps := attachArgs ctx.storageDir ops
  let pair ← filesystemAttachmentParamsBySource ctx.storageDir aps
    ctx.filesystems ctx.managedFilesystemSource ctx.registry
  let (tr, statuses, reschedule, filesystemAttachments) ← attachLoop pair.2 pair.1
  let (ptr, attachmentCache) ← setFilesystemAttachmentInfo ctx filesystemAttachments
  .ok { trace := tr ++ [Event.scheduleOpsAttach reschedule, Event.setStatusCall statuses] ++ ptr,
        statuses := statuses, reschedule := reschedule,
        filesystemAttachments := filesystemAttachments,
        attachmentCache := attachmentCache }

/-- Per-entity result interpretation loop of `detachFilesystems`: a per-entity
error keeps status `detaching` with the error message and reschedules the
attachment's id; a success records status `detached` and queues the id for
removal. -/
def interpretDetachResults : List FilesystemAttachmentParams → List (Option String) →
    Except String (List EntityStatusArgs × List MachineStorageId × List MachineStorageId)
  | _, [] => .ok ([], [], [])
  | p :: ps, r :: rs => do
    let (st, rk, rm) ← interpretDetachResults ps rs
    match r with
    | some e =>
      .ok ({ tag := filesystemTagString p.filesystem, status := "detaching", info := e } :: st,
           attachmentId p :: rk, rm)
    | none =>
      .ok ({ tag := filesystemTagString p.filesystem, status := "detached", info := "" } :: st,
           rk, attachmentId p :: rm)
  | [], _ :: _ => .error "panic: index out of range"

/-- Body of the per-source loop of `detachFilesystems`: a source-map miss is
skipped (with a critical log line) when the model is a CAAS model, and is a
nil-interface call otherwise. -/
def detachProcessSource (isCAASModel : Bool)
    (sources : List (String × Option FilesystemSource)) (sourceName : String)
    (aps : List FilesystemAttachmentParams) :
    Except String (List Event × List EntityStatusArgs × List MachineStorageId × List MachineStorageId) :=
  match lookupA sources sourceName with
  | none =>
    if isCAASModel then .ok ([Event.logCritical sourceName], [], [], [])
    else .error ("panic: nil filesystem source for " ++ sourceName)
  | some none => .error ("panic: nil filesystem source for " ++ sourceName)
  | some (some src) =>
    match src.detachFilesystems aps with
    | .error e =>
      .error ("detaching filesystems from source \"" ++ sourceName ++ "\": " ++ e)
    | .ok errs => do
      let (st, rk, rm) ← interpretDetachResults aps errs
      .ok ([Event.detachCall sourceName aps], st, rk, rm)

/-- The per-source loop of `detachFilesystems`. -/
def detachLoop (isCAASModel : Bool) (sources : List (String × Option FilesystemSource)) :
    List (String × List FilesystemAttachmentParams) →
    Except String (List Event × List EntityStatusArgs × List MachineStorageId × List MachineStorageId)
  | [] => .ok ([], [], [], [])
  | (sourceName, aps) :: rest => do
    let (tr1, st1, rk1, rm1) ← detachProcessSource isCAASModel sources sourceName aps
    let (tr2, st2, rk2, rm2) ← detachLoop isCAASModel sources rest
    .ok (tr1 ++ tr2, st1 ++ st2, rk1 ++ rk2, rm1 ++ rm2)

/-- Go `delete(m, id)` for the attachment cache. -/
def deleteMSI (m : List (MachineStorageId × FilesystemAttachment))
    (k : MachineStorageId) : List (MachineStorageId × FilesystemAttachment) :=
  m.filter fun kv => kv.1 ≠ k

/-- Result of a `detachFilesystems` pass. -/
structure DetachExecResult where
  trace : List Event
  statuses : List EntityStatusArgs
  reschedule : List MachineStorageId
  removed : List MachineStorageId
  attachmentCache : List (MachineStorageId × FilesystemAttachment)
  deriving Repr, DecidableEq

/-- `detachFilesystems`: destroys filesystem attachments with the specified
parameters. -/
def detachFilesystems (ctx : Context) (ops : List DetachFilesystemOp) :
    Except String DetachExecResult := do
  let aps := ops.map (·.args)
  let pair ← filesystemAttachmentParamsBySource ctx.storageDir aps
    ctx.filesystems ctx.managedFilesystemSource ctx.registry
  let (tr, statuses, reschedule, removed) ← detachLoop ctx.isCAASModel pair.2 pair.1
  match ctx.removeAttachmentsApi removed with
  | some e => .error ("removing attachments from state: " ++ e)
  | none =>
    .ok { trace := tr ++ [Event.scheduleOpsAttach reschedule, Event.setStatusCall statuses,
                          Event.removeAttachmentsCall removed],
          statuses := statuses, reschedule := reschedule, removed := removed,
          attachmentCache := removed.foldl deleteMSI ctx.filesystemAttachments }

/-- Per-entity interpretation loop of the `removeFilesystems` helper closure:
a nil error queues the tag for removal from state; a non-nil error reschedules
the tag and records status `destroying` with the error message. -/
def interpretRemoveResults : List String → List (Option String) →
    Except String (List String × List String × List EntityStatusArgs)
  | _, [] => .ok ([], [], [])
  | t :: ts, e :: es => do
    let (rm, rs, st) ← interpretRemoveResults ts es
    match e with
    | none => .ok (t :: rm, rs, st)
    | some msg =>
      .ok (rm, t :: rs,
           { tag := filesystemTagString t, status := "destroying", info := msg } :: st)
  | [], _ :: _ => .error "panic: index out of range"

/-- The `removeFilesystems` helper closure: skip an empty id batch, otherwise
make the bulk call and interpret per-entity errors. -/
def removeOneKind (f : List String → Except String (List (Option String)))
    (tags : List String) (ids : List String) :
    Except String (List String × List String × List EntityStatusArgs) :=
  if ids.isEmpty then .ok ([], [], [])
  else
    match f ids with
    | .error e => .error e
    | .ok errs => interpretRemoveResults tags errs

/-- Body of the per-source loop of `removeFilesystems`: rebuild the remove
parameters by tag, partition by the destroy flag, then destroy and release
sub-batches in turn. -/
def removeProcessSource (byTag : List (String × RemoveFilesystemParams))
    (sourceName : String) (filesystemSource : Option FilesystemSource)
    (fsps : List FilesystemParams) :
    Except String (List Event × List String × List String × List EntityStatusArgs) :=
  match filesystemSource with
  | none => .error ("panic: nil filesystem source for " ++ sourceName)
  | some src =>
    let removeTags := fsps.map (·.tag)
    let removeParams := fsps.map fun p =>
      (lookupA byTag p.tag).getD zeroRemoveFilesystemParams
    let (dt, di, rt, ri) := partitionRemoveFilesystemParams removeTags removeParams
    match removeOneKind src.destroyFilesystems dt di with
    | .error e => .error e
    | .ok (rm1, rs1, st1) =>
      match removeOneKind src.releaseFilesystems rt ri with
      | .error e => .error e
      | .ok (rm2, rs2, st2) =>
        .ok ((if di.isEmpty then [] else [Event.destroyCall sourceName di]) ++
             (if ri.isEmpty then [] else [Event.releaseCall sourceName ri]),
             rm1 ++ rm2, rs1 ++ rs2, st1 ++ st2)

/-- The per-source loop of `removeFilesystems`. -/
def removeLoop (byTag : List (String × RemoveFilesystemParams))
    (sources : List (String × Option FilesystemSource)) :
    List (String × List FilesystemParams) →
    Except String (List Event × List String × List String × List EntityStatusArgs)
  | [] => .ok ([], [], [], [])
  | (sourceName, fsps) :: rest => do
    let (tr1, rm1, rs1, st1) ← removeProcessSource byTag sourceName
      (joinLookup sources sourceName) fsps
    let (tr2, rm2, rs2, st2) ← removeLoop byTag sources rest
    .ok (tr1 ++ tr2, rm1 ++ rm2, rs1 ++ rs2, st1 ++ st2)

/-- Build of the synthetic `storage.FilesystemParams` slice in
`removeFilesystems`: entry `i` carries `tags[i]` and the provider of the
`i`-th remove-params record; if the facade returned fewer records than tags,
the remaining entries keep the Go zero value. -/
def buildRemoveFsParams : List String → List RemoveFilesystemParams →
    Except String (List FilesystemParams)
  | ts, [] => .ok (ts.map fun _ => zeroFilesystemParams)
  | t :: ts, a :: rest => do
    let fps ← buildRemoveFsParams ts rest
    .ok ({ tag := t, provider := a.provider, volume := "", size := 0 } :: fps)
  | [], _ :: _ => .error "panic: index out of range"

/-- The `removeFilesystemParamsByTag` map of `removeFilesystems`. -/
def removeParamsByTag (ts : List String) (rfps : List RemoveFilesystemParams) :
    List (String × RemoveFilesystemParams) :=
  (ts.zip rfps).foldl (fun m ta => insertA m ta.1 ta.2) []

/-- Result of a `removeFilesystems` pass. -/
structure RemoveExecResult where
  trace : List Event
  statuses : List EntityStatusArgs
  reschedule : List String
  removed : List String
  deriving Repr, DecidableEq

/-- `removeFilesystems`: destroys or releases filesystems with the specified
parameters. -/
def removeFilesystems (ctx : Context) (ops : List RemoveFilesystemOp) :
    Except String RemoveExecResult := do
  let tags := ops.map (·.tag)
  let rfps ← ctx.removeParamsApi tags
  let filesystemParams ← buildRemoveFsParams tags rfps
  let byTag := removeParamsByTag tags rfps
  let pair ← filesystemParamsBySource ctx.storageDir filesystemParams
    ctx.managedFilesystemSource ctx.registry
  let (tr, removed, reschedule, statuses) ← removeLoop byTag pair.2 pair.1
  match ctx.removeApi removed with
  | some e => .error ("removing filesystems from state: " ++ e)
  | none =>
    .ok { trace := tr ++ [Event.scheduleOpsFs reschedule, Event.setStatusCall statuses,
                          Event.removeEntitiesCall removed],
          statuses := statuses, reschedule := reschedule, removed := removed }

/-- A well-behaved provider source for concrete instances: validation always
passes, creation echoes each parameter into a filesystem, attachment echoes
the parameters, and all removal calls succeed per entity. -/
def okSource : FilesystemSource :=
  { validateFilesystemParams := fun _ => none,
    createFilesystems := fun ps => .ok (ps.map fun p =>
      { filesystem := some { tag := p.tag, volume := p.volume,
                             filesystemId := "fsid-" ++ p.tag, size := p.size },
        error := none }),
    attachFilesystems := fun ps => .ok (ps.map fun p =>
      { filesystemAttachment := some { filesystem := p.filesystem, machine := p.machine,
                                       path := p.path, readOnly := p.readOnly },
        error := none }),
    detachFilesystems := fun ps => .ok (ps.map fun _ => none),
    destroyFilesystems := fun ids => .ok (ids.map fun _ => none),
    releaseFilesystems := fun ids => .ok (ids.map fun _ => none) }

/-- A context whose collaborators all succeed: every provider resolves to
`okSource` dynamically and every controller facade call accepts everything. -/
def baseContext : Context :=
  { storageDir := "/storage",
    registry := fun _ => SourceResolution.dynamic okSource,
    managedFilesystemSource := okSource,
    filesystems := [],
    filesystemAttachments := [],
    isCAASModel := false,
    setFilesystemInfoApi := fun fs => .ok (fs.map fun _ => none),
    setFilesystemAttachmentInfoApi := fun fs => .ok (fs.map fun _ => none),
    removeParamsApi := fun ts => .ok (ts.map fun _ => zeroRemoveFilesystemParams),
    removeApi := fun _ => none,
    removeAttachmentsApi := fun _ => none }

/-- Union of the per-source partitions. -/
def unionParts {α : Type} (m : List (String × List α)) : List α :=
  (m.map Prod.snd).flatten

/-- The status record a validation outcome contributes, if any. -/
def validationStatusOf (src : FilesystemSource) (p : FilesystemParams) :
    Option EntityStatusArgs :=
  match src.validateFilesystemParams p with
  | some e => some { tag := filesystemTagString p.tag, status := "error", info := e }
  | none => none

/-- The status record `createFilesystems` emits for one submitted parameter's
result. -/
def createStatusOf (pr : FilesystemParams × CreateFilesystemsResult) : EntityStatusArgs :=
  match pr.2.error with
  | some e => { tag := filesystemTagString pr.1.tag, status := "pending", info := e }
  | none => { tag := filesystemTagString pr.1.tag, status := "attaching", info := "" }

/-- True for the bulk `SetFilesystemInfo` persistence event. -/
def Event.isSetFilesystemInfoCall : Event → Bool
  | Event.setFilesystemInfoCall _ => true
  | _ => false

/-- A source whose validation rejects exactly the parameters tagged `bad`. -/
def rejectSource : FilesystemSource :=
  { okSource with validateFilesystemParams :=
      fun p => if p.tag = "bad" then some "invalid size" else none }

/-- Concrete create parameter rejected by `rejectSource`. -/
def pBadC4 : FilesystemParams := { tag := "bad", provider := "loop", volume := "", size := 1 }

/-- Concrete create parameter accepted by `rejectSource`. -/
def pGoodC4 : FilesystemParams := { tag := "0", provider := "loop", volume := "", size := 2 }

/-- Trace of the concrete mixed-validation batch. -/
def trC4 : List Event := [Event.createCall "loop" [pGoodC4]]

/-- Statuses of the concrete mixed-validation batch. -/
def stC4 : List EntityStatusArgs :=
  [{ tag := "filesystem-bad", status := "error", info := "invalid size" },
   { tag := "filesystem-0", status := "attaching", info := "" }]

/-- Created filesystems of the concrete mixed-validation batch. -/
def fssC4 : List Filesystem :=
  [{ tag := "0", volume := "", filesystemId := "fsid-0", size := 2 }]

/-- Concrete create parameter for the success scenario. -/
def pC5 : FilesystemParams := { tag := "5", provider := "loop", volume := "", size := 3 }

/-- The filesystem `okSource` creates for `pC5`. -/
def fsC5 : Filesystem := { tag := "5", volume := "", filesystemId := "fsid-5", size := 3 }

/-- Provider results for the success scenario. -/
def resC5 : List CreateFilesystemsResult := [{ filesystem := some fsC5, error := none }]

/-- Statuses of the success scenario. -/
def stC5w : List EntityStatusArgs :=
  [{ tag := "filesystem-5", status := "attaching", info := "" }]

/-- Provider results of the mixed-validation batch (only the passing
parameter is submitted). -/
def resC6 : List CreateFilesystemsResult :=
  [{ filesystem := some { tag := "0", volume := "", filesystemId := "fsid-0", size := 2 },
     error := none }]

/-- Concrete attach operation for the persistence-error scenario. -/
def aopC1 : AttachFilesystemOp :=
  { args := { provider := "loop", machine := "1", filesystem := "fs-0", path := "",
              readOnly := false } }

/-- A context whose `SetFilesystemAttachmentInfo` facade call accepts the
transport but rejects every record. -/
def ctxC1ce : Context :=
  { baseContext with setFilesystemAttachmentInfoApi :=
      fun fs => Except.ok (fs.map fun _ => some "rejected") }

/-- A context whose `SetFilesystemInfo` facade call accepts the transport but
rejects the record. -/
def ctxC1w : Context :=
  { baseContext with setFilesystemInfoApi := fun _ => Except.ok [some "r1"] }

/-- Concrete filesystem for the create-side persistence-error scenario. -/
def fsC1w : Filesystem := { tag := "9", volume := "", filesystemId := "i9", size := 1 }

/-- Concrete attachment parameter whose provider the registry reports as
non-dynamic (its filesystem is cached with an empty backing volume, so the
registry is consulted). -/
def apC2 : FilesystemAttachmentParams :=
  { provider := "p", machine := "1", filesystem := "0", path := "/x", readOnly := false }

/-- Local filesystem cache for the non-dynamic attachment scenario. -/
def cacheC2 : List (String × Filesystem) :=
  [("0", { tag := "0", volume := "", filesystemId := "i", size := 1 })]

/-- A registry that resolves provider `nd` as non-dynamic and everything else
to the dynamic `okSource`. -/
def regC2 : String → SourceResolution :=
  fun n => if n = "nd" then SourceResolution.nonDynamic else SourceResolution.dynamic okSource

/-- Concrete create parameter with a dynamic provider. -/
def pDynC2 : FilesystemParams := { tag := "1", provider := "loop", volume := "", size := 1 }

/-- Concrete create parameter with a non-dynamic provider. -/
def pNdC2 : FilesystemParams := { tag := "2", provider := "nd", volume := "", size := 1 }

/-- Sources resolved for the mixed create batch. -/
def sourcesC2 : List (String × Option FilesystemSource) :=
  [("loop", some okSource), ("nd", none)]

/-- Concrete attach operation with an empty supplied mount path. -/
def aopC3 : AttachFilesystemOp :=
  { args := { provider := "loop", machine := "1", filesystem := "fs-0", path := "",
              readOnly := false } }

/-- The attachment parameters `attachFilesystems` submits for `aopC3` under
storage directory `/storage`. -/
def apSynthC3 : FilesystemAttachmentParams :=
  { provider := "loop", machine := "1", filesystem := "fs-0", path := "/storage/fs-0",
    readOnly := false }

/-- The attachment `okSource` reports for `apSynthC3`. -/
def attC3 : FilesystemAttachment :=
  { filesystem := "fs-0", machine := "1", path := "/storage/fs-0", readOnly := false }

/-- Full executor result of the concrete empty-path attach pass. -/
def outC3 : AttachExecResult :=
  { trace := [Event.attachCall "loop" [apSynthC3],
              Event.scheduleOpsAttach [],
              Event.setStatusCall [{ tag := "filesystem-fs-0", status := "attached", info := "" }],
              Event.setFilesystemAttachmentInfoCall
                [{ filesystemTag := "filesystem-fs-0", machineTag := "machine-1",
                   info := { mountPoint := "/storage/fs-0", readOnly := false } }],
              Event.removePendingFilesystemAttachmentEv
                { machineTag := "machine-1", attachmentTag := "filesystem-fs-0" }],
    statuses := [{ tag := "filesystem-fs-0", status := "attached", info := "" }],
    reschedule := [],
    filesystemAttachments := [attC3],
    attachmentCache :=
      [({ machineTag := "machine-1", attachmentTag := "filesystem-fs-0" }, attC3)] }

/-- A behaviorally distinguishable dynamic source (its validation rejects
everything, unlike `okSource`). -/
def dynMarker : FilesystemSource :=
  { okSource with validateFilesystemParams := fun _ => some "dyn" }

/-- First attachment parameter of provider `p`: its filesystem is cached with
an empty backing volume, so the registry is consulted. -/
def p1C10 : FilesystemAttachmentParams :=
  { provider := "p", machine := "m", filesystem := "0", path := "/a", readOnly := false }

/-- Second attachment parameter of provider `p`: its filesystem is absent
from the cache. -/
def p2C10 : FilesystemAttachmentParams :=
  { provider := "p", machine := "m", filesystem := "1", path := "/a", readOnly := false }

/-- Local filesystem cache holding only `p1C10`'s filesystem. -/
def cacheC10 : List (String × Filesystem) :=
  [("0", { tag := "0", volume := "", filesystemId := "i", size := 1 })]

/-- A registry resolving every provider to the dynamic `dynMarker`. -/
def regC10 : String → SourceResolution := fun _ => SourceResolution.dynamic dynMarker

/-- Attachment parameter absent from the (empty) cache. -/
def qC10 : FilesystemAttachmentParams :=
  { provider := "p", machine := "m", filesystem := "9", path := "/a", readOnly := false }

/-- A registry that fails every resolution: consulting it would abort the
call, so a successful call shows it was never consulted. -/
def regPoison : String → SourceResolution := fun _ => SourceResolution.failed "boom"

/-- Result of the empty create pass used to witness the flush shape. -/
def outC9 : CreateExecResult :=
  { trace := [Event.scheduleOpsFs [], Event.setStatusCall []],
    statuses := [], reschedule := [], filesystems := [], cache := [] }

theorem lookupA_append_left {α : Type} {m : List (String × α)} {k : String} {v : α}
    (ext : List (String × α)) (h : lookupA m k = some v) :
    lookupA (m ++ ext) k = some v := by
  induction m with
  | nil => simp [lookupA] at h
  | cons kv rest ih =>
    by_cases hk : kv.1 = k
    · simpa [lookupA, hk] using by simpa [lookupA, hk] using h
    · simp [lookupA, hk] at h ⊢
      exact ih h

theorem lookupA_none_append {α : Type} {m : List (String × α)} {k : String}
    (ext : List (String × α)) (h : lookupA m k = none) :
    lookupA (m ++ ext) k = lookupA ext k := by
  induction m with
  | nil => simp
  | cons kv rest ih =>
    by_cases hk : kv.1 = k
    · simp [lookupA, hk] at h
    · simp [lookupA, hk] at h ⊢
      exact ih h

theorem mem_of_lookupA {α : Type} {m : List (String × α)} {k : String} {v : α}
    (h : lookupA m k = some v) : (k, v) ∈ m := by
  induction m with
  | nil => simp [lookupA] at h
  | cons kv rest ih =>
    obtain ⟨k', v'⟩ := kv
    by_cases hk : k' = k
    · subst hk
      have hv : v' = v := by simpa [lookupA] using h
      subst hv
      exact List.mem_cons_self _ _
    · simp only [lookupA, if_neg hk] at h
      exact List.mem_cons_of_mem _ (ih h)

theorem unionParts_appendAt {α : Type} (m : List (String × List α)) (k : String) (v : α) :
    List.Perm (unionParts (appendAt m k v)) (unionParts m ++ [v]) := by
  induction m with
  | nil => simp [appendAt, unionParts]
  | cons kv rest ih =>
    obtain ⟨k', vs⟩ := kv
    by_cases hk : k' = k
    · subst hk
      have h1 : appendAt ((k', vs) :: rest) k' v = (k', vs ++ [v]) :: rest := by
        simp [appendAt]
      have h2 : unionParts ((k', vs ++ [v]) :: rest) = vs ++ ([v] ++ unionParts rest) := by
        simp [unionParts, List.append_assoc]
      have h3 : unionParts ((k', vs) :: rest) ++ [v] = vs ++ (unionParts rest ++ [v]) := by
        simp [unionParts, List.append_assoc]
      rw [h1, h2, h3]
      exact List.Perm.append_left vs List.perm_append_comm
    · have h1 : appendAt ((k', vs) :: rest) k v = (k', vs) :: appendAt rest k v := by
        simp [appendAt, hk]
      have h2 : unionParts ((k', vs) :: appendAt rest k v) = vs ++ unionParts (appendAt rest k v) := by
        simp [unionParts]
      have h3 : unionParts ((k', vs) :: rest) ++ [v] = vs ++ (unionParts rest ++ [v]) := by
        simp [unionParts, List.append_assoc]
      rw [h1, h2, h3]
      exact List.Perm.append_left vs ih

theorem buildFS_extends (managed : FilesystemSource) (reg : String → SourceResolution) :
    ∀ (ps : List FilesystemParams) (acc out : List (String × Option FilesystemSource)),
    buildFilesystemSources managed reg ps acc = .ok out → ∃ ext, out = acc ++ ext := by
  intro ps
  induction ps with
  | nil =>
    intro acc out h
    simp only [buildFilesystemSources] at h
    exact ⟨[], by simpa using h.symm⟩
  | cons p rest ih =>
    intro acc out h
    simp only [buildFilesystemSources] at h
    by_cases hc : containsA acc p.provider
    · rw [if_pos hc] at h
      exact ih acc out h
    · rw [if_neg hc] at h
      by_cases hv : p.volume ≠ ""
      · rw [if_pos hv] at h
        obtain ⟨ext, hext⟩ := ih _ out h
        exact ⟨_, by simpa [List.append_assoc] using hext⟩
      · rw [if_neg hv] at h
        cases hr : reg p.provider with
        | dynamic s =>
          rw [hr] at h
          obtain ⟨ext, hext⟩ := ih _ out h
          exact ⟨_, by simpa [List.append_assoc] using hext⟩
        | nonDynamic =>
          rw [hr] at h
          obtain ⟨ext, hext⟩ := ih _ out h
          exact ⟨_, by simpa [List.append_assoc] using hext⟩
        | failed e =>
          rw [hr] at h
          simp at h

theorem buildFS_none_nonDynamic (managed : FilesystemSource) (reg : String → SourceResolution) :
    ∀ (ps : List FilesystemParams) (acc out : List (String × Option FilesystemSource)),
    buildFilesystemSources managed reg ps acc = .ok out →
    (∀ e ∈ acc, e.2 = none → reg e.1 = SourceResolution.nonDynamic) →
    ∀ e ∈ out, e.2 = none → reg e.1 = SourceResolution.nonDynamic := by
  intro ps
  induction ps with
  | nil =>
    intro acc out h hacc
    simp only [buildFilesystemSources] at h
    cases h
    exact hacc
  | cons p rest ih =>
    intro acc out h hacc
    simp only [buildFilesystemSources] at h
    by_cases hc : containsA acc p.provider
    · rw [if_pos hc] at h
      exact ih acc out h hacc
    · rw [if_neg hc] at h
      by_cases hv : p.volume ≠ ""
      · rw [if_pos hv] at h
        refine ih _ out h ?_
        intro e he
        rcases List.mem_append.mp he with h1 | h1
        · exact hacc e h1
        · simp at h1
          subst h1
          simp
      · rw [if_neg hv] at h
        cases hr : reg p.provider with
        | dynamic s =>
          rw [hr] at h
          refine ih _ out h ?_
          intro e he
          rcases List.mem_append.mp he with h1 | h1
          · exact hacc e h1
          · simp at h1
            subst h1
            simp
        | nonDynamic =>
          rw [hr] at h
          refine ih _ out h ?_
          intro e he
          rcases List.mem_append.mp he with h1 | h1
          · exact hacc e h1
          · simp at h1
            subst h1
            intro
            simpa using hr
        | failed e =>
          rw [hr] at h
          simp at h

theorem containsA_append_entry {α : Type} (acc : List (String × α)) (k : String) (v : α)
    (h : lookupA acc k = none) : containsA (acc ++ [(k, v)]) k = true := by
  simp [containsA, lookupA_none_append _ h, lookupA]

theorem containsA_mono {α : Type} {acc : List (String × α)} {k : String}
    (ext : List (String × α)) (h : containsA acc k = true) :
    containsA (acc ++ ext) k = true := by
  simp only [containsA, Option.isSome_iff_exists] at h
  obtain ⟨v, hv⟩ := h
  simp [containsA, lookupA_append_left ext hv]

theorem buildFS_covers (managed : FilesystemSource) (reg : String → SourceResolution) :
    ∀ (ps : List FilesystemParams) (acc out : List (String × Option FilesystemSource)),
    buildFilesystemSources managed reg ps acc = .ok out →
    ∀ p ∈ ps, containsA out p.provider = true := by
  intro ps
  induction ps with
  | nil =>
    intro acc out _ p hp
    simp at hp
  | cons q rest ih =>
    intro acc out h p hp
    simp only [buildFilesystemSources] at h
    rcases List.mem_cons.mp hp with hpq | hp'
    · subst hpq
      by_cases hc : containsA acc p.provider
      · rw [if_pos hc] at h
        obtain ⟨ext, hext⟩ := buildFS_extends managed reg rest acc out h
        subst hext
        exact containsA_mono ext hc
      · rw [if_neg hc] at h
        have hnone : lookupA acc p.provider = none := by
          cases hlk : lookupA acc p.provider with
          | none => rfl
          | some v => exact absurd (by simp [containsA, hlk]) hc
        by_cases hv : p.volume ≠ ""
        · rw [if_pos hv] at h
          obtain ⟨ext, hext⟩ := buildFS_extends managed reg rest _ out h
          subst hext
          exact containsA_mono _ (containsA_append_entry acc _ _ hnone)
        · rw [if_neg hv] at h
          cases hr : reg p.provider with
          | dynamic s =>
            rw [hr] at h
            obtain ⟨ext, hext⟩ := buildFS_extends managed reg rest _ out h
            subst hext
            exact containsA_mono _ (containsA_append_entry acc _ _ hnone)
          | nonDynamic =>
            rw [hr] at h
            obtain ⟨ext, hext⟩ := buildFS_extends managed reg rest _ out h
            subst hext
            exact containsA_mono _ (containsA_append_entry acc _ _ hnone)
          | failed e =>
            rw [hr] at h
            simp at h
    · by_cases hc : containsA acc q.provider
      · rw [if_pos hc] at h
        exact ih acc out h p hp'
      · rw [if_neg hc] at h
        by_cases hv : q.volume ≠ ""
        · rw [if_pos hv] at h
          exact ih _ out h p hp'
        · rw [if_neg hv] at h
          cases hr : reg q.provider with
          | dynamic s =>
            rw [hr] at h
            exact ih _ out h p hp'
          | nonDynamic =>
            rw [hr] at h
            exact ih _ out h p hp'
          | failed e =>
            rw [hr] at h
            simp at h

theorem partitionBySources_perm (sources : List (String × Option FilesystemSource)) :
    ∀ (ps : List FilesystemParams) (acc : List (String × List FilesystemParams)),
    List.Perm (unionParts (partitionBySources sources ps acc))
      (unionParts acc ++ ps.filter fun p => (joinLookup sources p.provider).isSome) := by
  intro ps
  induction ps with
  | nil =>
    intro acc
    simp [partitionBySources]
  | cons p rest ih =>
    intro acc
    simp only [partitionBySources]
    cases hl : joinLookup sources p.provider with
    | some s =>
      have h1 := ih (appendAt acc p.provider p)
      have h2 : List.Perm
          (unionParts (appendAt acc p.provider p) ++
            rest.filter fun q => (joinLookup sources q.provider).isSome)
          ((unionParts acc ++ [p]) ++
            rest.filter fun q => (joinLookup sources q.provider).isSome) :=
        List.Perm.append_right _ (unionParts_appendAt acc p.provider p)
      have h3 : (unionParts acc ++ [p]) ++
          (rest.filter fun q => (joinLookup sources q.provider).isSome) =
          unionParts acc ++
            ((p :: rest).filter fun q => (joinLookup sources q.provider).isSome) := by
        simp [List.append_assoc, List.filter_cons, hl]
      rw [← h3]
      exact (h1.trans h2)
    | none =>
      have h3 : ((p :: rest).filter fun q => (joinLookup sources q.provider).isSome) =
          (rest.filter fun q => (joinLookup sources q.provider).isSome) := by
        simp [List.filter_cons, hl]
      rw [h3]
      exact ih acc

theorem buildAB_extends (cache : List (String × Filesystem)) (managed : FilesystemSource)
    (reg : String → SourceResolution) :
    ∀ (aps : List FilesystemAttachmentParams)
      (b0 : List (String × List FilesystemAttachmentParams))
      (s0 : List (String × Option FilesystemSource))
      (b : List (String × List FilesystemAttachmentParams))
      (s : List (String × Option FilesystemSource)),
    buildAttachBySource cache managed reg aps b0 s0 = .ok (b, s) →
    ∃ ext, s = s0 ++ ext := by
  intro aps
  induction aps with
  | nil =>
    intro b0 s0 b s h
    simp only [buildAttachBySource] at h
    cases h
    exact ⟨[], by simp⟩
  | cons p rest ih =>
    intro b0 s0 b s h
    simp only [buildAttachBySource] at h
    by_cases hc : containsA s0 p.provider
    · rw [if_pos hc] at h
      exact ih _ s0 b s h
    · rw [if_neg hc] at h
      cases hl : lookupA cache p.filesystem with
      | none =>
        rw [hl] at h
        obtain ⟨ext, hext⟩ := ih _ _ b s h
        exact ⟨_, by simpa [List.append_assoc] using hext⟩
      | some f =>
        rw [hl] at h
        simp only at h
        by_cases hv : f.volume ≠ ""
        · rw [if_pos hv] at h
          obtain ⟨ext, hext⟩ := ih _ _ b s h
          exact ⟨_, by simpa [List.append_assoc] using hext⟩
        · rw [if_neg hv] at h
          cases hr : reg p.provider with
          | dynamic src =>
            rw [hr] at h
            obtain ⟨ext, hext⟩ := ih _ _ b s h
            exact ⟨_, by simpa [List.append_assoc] using hext⟩
          | nonDynamic =>
            rw [hr] at h
            simp at h
          | failed e =>
            rw [hr] at h
            simp at h

theorem buildAB_union (cache : List (String × Filesystem)) (managed : FilesystemSource)
    (reg : String → SourceResolution) :
    ∀ (aps : List FilesystemAttachmentParams)
      (b0 : List (String × List FilesystemAttachmentParams))
      (s0 : List (String × Option FilesystemSource))
      (b : List (String × List FilesystemAttachmentParams))
      (s : List (String × Option FilesystemSource)),
    buildAttachBySource cache managed reg aps b0 s0 = .ok (b, s) →
    List.Perm (unionParts b) (unionParts b0 ++ aps) := by
  intro aps
  induction aps with
  | nil =>
    intro b0 s0 b s h
    simp only [buildAttachBySource] at h
    cases h
    simp
  | cons p rest ih =>
    intro b0 s0 b s h
    simp only [buildAttachBySource] at h
    have step : ∀ (s1 : List (String × Option FilesystemSource)),
        buildAttachBySource cache managed reg rest (appendAt b0 p.provider p) s1 = .ok (b, s) →
        List.Perm (unionParts b) (unionParts b0 ++ p :: rest) := by
      intro s1 h1
      have hperm := ih (appendAt b0 p.provider p) s1 b s h1
      have h2 : List.Perm (unionParts (appendAt b0 p.provider p) ++ rest)
          ((unionParts b0 ++ [p]) ++ rest) :=
        List.Perm.append_right rest (unionParts_appendAt b0 p.provider p)
      have h3 : (unionParts b0 ++ [p]) ++ rest = unionParts b0 ++ p :: rest := by
        simp [List.append_assoc]
      rw [h3] at h2
      exact hperm.trans h2
    by_cases hc : containsA s0 p.provider
    · rw [if_pos hc] at h
      exact step s0 h
    · rw [if_neg hc] at h
      cases hl : lookupA cache p.filesystem with
      | none =>
        rw [hl] at h
        exact step _ h
      | some f =>
        rw [hl] at h
        simp only at h
        by_cases hv : f.volume ≠ ""
        · rw [if_pos hv] at h
          exact step _ h
        · rw [if_neg hv] at h
          cases hr : reg p.provider with
          | dynamic src =>
            rw [hr] at h
            exact step _ h
          | nonDynamic =>
            rw [hr] at h
            simp at h
          | failed e =>
            rw [hr] at h
            simp at h

theorem buildAB_first_managed (cache : List (String × Filesystem)) (managed : FilesystemSource)
    (reg : String → SourceResolution) :
    ∀ (pre : List FilesystemAttachmentParams) (q : FilesystemAttachmentParams)
      (post : List FilesystemAttachmentParams)
      (b0 : List (String × List FilesystemAttachmentParams))
      (s0 : List (String × Option FilesystemSource))
      (b : List (String × List FilesystemAttachmentParams))
      (s : List (String × Option FilesystemSource)),
    buildAttachBySource cache managed reg (pre ++ q :: post) b0 s0 = .ok (b, s) →
    (∀ r ∈ pre, r.provider ≠ q.provider) →
    containsA s0 q.provider = false →
    (∀ f, lookupA cache q.filesystem = some f → f.volume ≠ "") →
    lookupA s q.provider = some (some managed) := by
  intro pre
  induction pre with
  | nil =>
    intro q post b0 s0 b s h _ hc hf
    simp only [List.nil_append, buildAttachBySource] at h
    rw [if_neg (by simp [hc])] at h
    have hnone : lookupA s0 q.provider = none := by
      cases hlk : lookupA s0 q.provider with
      | none => rfl
      | some v => simp [containsA, hlk] at hc
    have hstep :
        buildAttachBySource cache managed reg post (appendAt b0 q.provider q)
          (s0 ++ [(q.provider, some managed)]) = .ok (b, s) →
        lookupA s q.provider = some (some managed) := by
      intro h1
      obtain ⟨ext, hext⟩ := buildAB_extends cache managed reg post _ _ b s h1
      subst hext
      have : lookupA (s0 ++ [(q.provider, some managed)]) q.provider = some (some managed) := by
        rw [lookupA_none_append _ hnone]
        simp [lookupA]
      exact lookupA_append_left ext this
    cases hl : lookupA cache q.filesystem with
    | none =>
      rw [hl] at h
      exact hstep h
    | some f =>
      rw [hl] at h
      simp only at h
      rw [if_pos (hf f hl)] at h
      exact hstep h
  | cons r pre' ih =>
    intro q post b0 s0 b s h hpre hc hf
    have hrq : r.provider ≠ q.provider := hpre r (List.mem_cons_self _ _)
    have hpre' : ∀ x ∈ pre', x.provider ≠ q.provider := fun x hx =>
      hpre x (List.mem_cons_of_mem _ hx)
    simp only [List.cons_append, buildAttachBySource] at h
    have hkeep : ∀ (x : Option FilesystemSource),
        containsA (s0 ++ [(r.provider, x)]) q.provider = false := by
      intro x
      have hnone : lookupA s0 q.provider = none := by
        cases hlk : lookupA s0 q.provider with
        | none => rfl
        | some v => simp [containsA, hlk] at hc
      rw [containsA, lookupA_none_append _ hnone]
      simp [lookupA, hrq]
    by_cases hcr : containsA s0 r.provider
    · rw [if_pos hcr] at h
      exact ih q post _ s0 b s h hpre' hc hf
    · rw [if_neg hcr] at h
      cases hl : lookupA cache r.filesystem with
      | none =>
        rw [hl] at h
        exact ih q post _ _ b s h hpre' (hkeep _) hf
      | some f =>
        rw [hl] at h
        simp only at h
        by_cases hv : f.volume ≠ ""
        · rw [if_pos hv] at h
          exact ih q post _ _ b s h hpre' (hkeep _) hf
        · rw [if_neg hv] at h
          cases hr2 : reg r.provider with
          | dynamic src =>
            rw [hr2] at h
            exact ih q post _ _ b s h hpre' (hkeep _) hf
          | nonDynamic =>
            rw [hr2] at h
            simp at h
          | failed e =>
            rw [hr2] at h
            simp at h

theorem validate_fst (src : FilesystemSource) :
    ∀ ps : List FilesystemParams,
    (validateFilesystemParams src ps).1 =
      ps.filter fun p => (src.validateFilesystemParams p).isNone := by
  intro ps
  induction ps with
  | nil => simp [validateFilesystemParams]
  | cons p rest ih =>
    simp only [validateFilesystemParams]
    cases he : src.validateFilesystemParams p with
    | none => simp [List.filter_cons, he, ih]
    | some e => simp [List.filter_cons, he, ih]

theorem validationStatuses_eq (src : FilesystemSource) :
    ∀ ps : List FilesystemParams,
    validationStatuses ps (validateFilesystemParams src ps).2 =
      ps.filterMap (validationStatusOf src) := by
  intro ps
  induction ps with
  | nil => simp [validateFilesystemParams, validationStatuses]
  | cons p rest ih =>
    simp only [validateFilesystemParams]
    cases he : src.validateFilesystemParams p with
    | none =>
      simp only [List.filterMap_cons, validationStatusOf, he]
      exact ih
    | some e =>
      simp only [validationStatuses, List.filterMap_cons, validationStatusOf, he]
      rw [ih]

theorem interpretCreateResults_char :
    ∀ (rs : List CreateFilesystemsResult) (ps : List FilesystemParams)
      (st : List EntityStatusArgs) (rk : List String) (fss : List Filesystem),
    interpretCreateResults ps rs = .ok (st, rk, fss) →
    st = (ps.zip rs).map createStatusOf ∧
    rk = ((ps.zip rs).filter fun pr => pr.2.error.isSome).map (fun pr => pr.1.tag) ∧
    fss.map some = ((ps.zip rs).filter fun pr => pr.2.error.isNone).map (fun pr => pr.2.filesystem) := by
  intro rs
  induction rs with
  | nil =>
    intro ps st rk fss h
    simp only [interpretCreateResults] at h
    cases h
    simp
  | cons r rs' ih =>
    intro ps st rk fss h
    cases ps with
    | nil => simp [interpretCreateResults] at h
    | cons p ps' =>
      simp only [interpretCreateResults] at h
      cases hrec : interpretCreateResults ps' rs' with
      | error e =>
        rw [hrec] at h
        simp [Bind.bind, Except.bind] at h
      | ok t =>
        obtain ⟨st', rk', fss'⟩ := t
        rw [hrec] at h
        obtain ⟨h1, h2, h3⟩ := ih ps' st' rk' fss' hrec
        cases he : r.error with
        | some e =>
          simp only [Bind.bind, Except.bind, he, Except.ok.injEq, Prod.mk.injEq] at h
          obtain ⟨hst, hrk, hfss⟩ := h
          subst hst
          subst hrk
          subst hfss
          refine ⟨?_, ?_, ?_⟩
          · simp [List.zip_cons_cons, createStatusOf, he, h1]
          · simp [List.zip_cons_cons, List.filter_cons, he, h2]
          · simp [List.zip_cons_cons, List.filter_cons, he, h3]
        | none =>
          cases hf : r.filesystem with
          | none =>
            simp [Bind.bind, Except.bind, he, hf] at h
          | some f =>
            simp only [Bind.bind, Except.bind, he, hf, Except.ok.injEq, Prod.mk.injEq] at h
            obtain ⟨hst, hrk, hfss⟩ := h
            subst hst
            subst hrk
            subst hfss
            refine ⟨?_, ?_, ?_⟩
            · simp [List.zip_cons_cons, createStatusOf, he, h1]
            · simp [List.zip_cons_cons, List.filter_cons, he, h2]
            · simp [List.zip_cons_cons, List.filter_cons, he, hf, h3]

theorem createProcessSource_char :
    ∀ (sourceName : String) (src : FilesystemSource) (fsps : List FilesystemParams)
      (tr : List Event) (st : List EntityStatusArgs) (rk : List String)
      (fss : List Filesystem),
    createProcessSource sourceName (some src) fsps = .ok (tr, st, rk, fss) →
    ∃ results,
      ((validateFilesystemParams src fsps).1.isEmpty = false →
        src.createFilesystems (validateFilesystemParams src fsps).1 = .ok results) ∧
      tr = (if (validateFilesystemParams src fsps).1.isEmpty then []
            else [Event.createCall sourceName (validateFilesystemParams src fsps).1]) ∧
      st = fsps.filterMap (validationStatusOf src) ++
        ((validateFilesystemParams src fsps).1.zip results).map createStatusOf ∧
      rk = (((validateFilesystemParams src fsps).1.zip results).filter
              fun pr => pr.2.error.isSome).map (fun pr => pr.1.tag) ∧
      fss.map some = (((validateFilesystemParams src fsps).1.zip results).filter
              fun pr => pr.2.error.isNone).map (fun pr => pr.2.filesystem) := by
  intro sourceName src fsps tr st rk fss h
  simp only [createProcessSource] at h
  by_cases hemp : (validateFilesystemParams src fsps).1.isEmpty
  · rw [if_pos hemp] at h
    simp only [Except.ok.injEq, Prod.mk.injEq] at h
    obtain ⟨htr, hst, hrk, hfss⟩ := h
    subst htr
    subst hst
    subst hrk
    subst hfss
    have hnil : (validateFilesystemParams src fsps).1 = [] :=
      List.isEmpty_iff.mp hemp
    refine ⟨[], ?_, ?_, ?_, ?_, ?_⟩
    · intro hfalse
      rw [hemp] at hfalse
      cases hfalse
    · rw [if_pos hemp]
    · rw [validationStatuses_eq, hnil]
      simp
    · rw [hnil]
      simp
    · rw [hnil]
      simp
  · rw [if_neg hemp] at h
    cases hres : src.createFilesystems (validateFilesystemParams src fsps).1 with
    | error e =>
      rw [hres] at h
      simp at h
    | ok results =>
      rw [hres] at h
      simp only at h
      cases hint : interpretCreateResults (validateFilesystemParams src fsps).1 results with
      | error e =>
        rw [hint] at h
        simp [Bind.bind, Except.bind] at h
      | ok t =>
        obtain ⟨st', rk', fss'⟩ := t
        rw [hint] at h
        simp only [Bind.bind, Except.bind, Except.ok.injEq, Prod.mk.injEq] at h
        obtain ⟨htr, hst, hrk, hfss⟩ := h
        subst htr
        subst hst
        subst hrk
        subst hfss
        obtain ⟨h1, h2, h3⟩ := interpretCreateResults_char results _ st' rk' fss' hint
        refine ⟨results, fun _ => rfl, ?_, ?_, h2, h3⟩
        · rw [if_neg hemp]
        · rw [validationStatuses_eq, h1]

theorem logPublishErrors_ok :
    ∀ (rs : List (Option String)) (fss : List Filesystem), rs.length ≤ fss.length →
    ∃ tr, logPublishErrors fss rs = .ok tr ∧
      ∀ f e, (f, some e) ∈ fss.zip rs →
        Event.logErr ("publishing filesystem " ++ f.tag ++ " to state: " ++ e) ∈ tr := by
  intro rs
  induction rs with
  | nil =>
    intro fss _
    refine ⟨[], ?_, ?_⟩
    · cases fss <;> simp [logPublishErrors]
    · intro f e hmem
      simp at hmem
  | cons r rs' ih =>
    intro fss hle
    cases fss with
    | nil => simp at hle
    | cons f fss' =>
      have hle' : rs'.length ≤ fss'.length := by
        simpa using hle
      obtain ⟨tr', h1, h2⟩ := ih fss' hle'
      cases r with
      | some e0 =>
        refine ⟨Event.logErr ("publishing filesystem " ++ f.tag ++ " to state: " ++ e0) :: tr', ?_, ?_⟩
        · simp [logPublishErrors, h1, Bind.bind, Except.bind]
        · intro g e hmem
          rcases (by simpa [List.zip_cons_cons] using hmem :
              (g = f ∧ e = e0) ∨ (g, some e) ∈ fss'.zip rs') with ⟨hg, he⟩ | ht
          · subst hg
            subst he
            exact List.mem_cons_self _ _
          · exact List.mem_cons_of_mem _ (h2 g e ht)
      | none =>
        refine ⟨tr', ?_, ?_⟩
        · simp [logPublishErrors, h1, Bind.bind, Except.bind]
        · intro g e hmem
          exact h2 g e (by simpa [List.zip_cons_cons] using hmem)

theorem logPublishErrors_logs :
    ∀ (rs : List (Option String)) (fss : List Filesystem) (tr : List Event),
    logPublishErrors fss rs = .ok tr → ∀ e ∈ tr, ∃ m, e = Event.logErr m := by
  intro rs
  induction rs with
  | nil =>
    intro fss tr h e he
    cases fss <;> simp only [logPublishErrors] at h <;> cases h <;> simp at he
  | cons r rs' ih =>
    intro fss tr h e he
    cases fss with
    | nil => simp [logPublishErrors] at h
    | cons f fss' =>
      simp only [logPublishErrors] at h
      cases hrec : logPublishErrors fss' rs' with
      | error e2 =>
        rw [hrec] at h
        simp [Bind.bind, Except.bind] at h
      | ok tr' =>
        rw [hrec] at h
        cases r with
        | some e0 =>
          simp only [Bind.bind, Except.bind, Except.ok.injEq] at h
          subst h
          rcases List.mem_cons.mp he with hh | ht
          · exact ⟨_, hh⟩
          · exact ih fss' tr' hrec e ht
        | none =>
          simp only [Bind.bind, Except.bind, Except.ok.injEq] at h
          subst h
          exact ih fss' tr' hrec e he

theorem recordAttachments_error :
    ∀ (rs : List (Option String)) (cache : List (MachineStorageId × FilesystemAttachment))
      (fas : List FilesystemAttachment) (e : String), some e ∈ rs →
    ∃ msg, recordAttachments cache fas rs = .error msg := by
  intro rs
  induction rs with
  | nil =>
    intro cache fas e hmem
    simp at hmem
  | cons r rs' ih =>
    intro cache fas e hmem
    cases fas with
    | nil => exact ⟨_, rfl⟩
    | cons a fas' =>
      cases r with
      | some e0 => exact ⟨_, rfl⟩
      | none =>
        have hmem' : some e ∈ rs' := by simpa using hmem
        obtain ⟨msg, hmsg⟩ := ih (insertMSI cache
          { machineTag := machineTagString a.machine,
            attachmentTag := filesystemTagString a.filesystem } a) fas' e hmem'
        refine ⟨msg, ?_⟩
        simp [recordAttachments, hmsg]

theorem setFilesystemAttachmentInfo_aborts :
    ∀ (ctx : Context) (fas : List FilesystemAttachment) (errs : List (Option String))
      (e : String),
    fas.isEmpty = false →
    ctx.setFilesystemAttachmentInfoApi (filesystemAttachmentsFromStorage fas) = .ok errs →
    some e ∈ errs →
    ∃ msg, setFilesystemAttachmentInfo ctx fas = .error msg := by
  intro ctx fas errs e hemp hok hmem
  obtain ⟨msg, hmsg⟩ := recordAttachments_error errs ctx.filesystemAttachments fas e hmem
  refine ⟨msg, ?_⟩
  simp only [setFilesystemAttachmentInfo, hemp]
  rw [if_neg (by simp [hemp])]
  rw [hok]
  simp [hmsg, Bind.bind, Except.bind]

theorem publishCreatedFilesystems_char :
    ∀ (ctx : Context) (fss : List Filesystem) (tr : List Event)
      (cache : List (String × Filesystem)),
    publishCreatedFilesystems ctx fss = .ok (tr, cache) →
    (fss.isEmpty = true → tr = [] ∧ cache = ctx.filesystems) ∧
    (fss.isEmpty = false →
      ∃ errorResults logTr,
        ctx.setFilesystemInfoApi (filesystemsFromStorage fss) = .ok errorResults ∧
        logPublishErrors fss errorResults = .ok logTr ∧
        tr = Event.setFilesystemInfoCall (filesystemsFromStorage fss) :: logTr ∧
        cache = fss.foldl updateFilesystem ctx.filesystems) := by
  intro ctx fss tr cache h
  by_cases hemp : fss.isEmpty
  · simp only [publishCreatedFilesystems] at h
    rw [if_pos hemp] at h
    simp only [Except.ok.injEq, Prod.mk.injEq] at h
    exact ⟨fun _ => ⟨h.1.symm, h.2.symm⟩, fun hfalse => by rw [hemp] at hfalse; cases hfalse⟩
  · simp only [publishCreatedFilesystems] at h
    rw [if_neg hemp] at h
    refine ⟨fun htrue => absurd htrue hemp, fun _ => ?_⟩
    cases hapi : ctx.setFilesystemInfoApi (filesystemsFromStorage fss) with
    | error e =>
      rw [hapi] at h
      simp at h
    | ok errorResults =>
      rw [hapi] at h
      simp only at h
      cases hlog : logPublishErrors fss errorResults with
      | error e =>
        rw [hlog] at h
        simp [Bind.bind, Except.bind] at h
      | ok logTr =>
        rw [hlog] at h
        simp only [Bind.bind, Except.bind, Except.ok.injEq, Prod.mk.injEq] at h
        exact ⟨errorResults, logTr, rfl, hlog, h.1.symm, h.2.symm⟩

theorem createFilesystems_unfold :
    ∀ (ctx : Context) (ops : List CreateFilesystemOp) (out : CreateExecResult),
    createFilesystems ctx ops = .ok out →
    ∃ bySource sources tr st rk fss ptr cache,
      filesystemParamsBySource ctx.storageDir (ops.map (·.args))
        ctx.managedFilesystemSource ctx.registry = .ok (bySource, sources) ∧
      createLoop sources bySource = .ok (tr, st, rk, fss) ∧
      publishCreatedFilesystems ctx fss = .ok (ptr, cache) ∧
      out = { trace := tr ++ [Event.scheduleOpsFs rk, Event.setStatusCall st] ++ ptr,
              statuses := st, reschedule := rk, filesystems := fss, cache := cache } := by
  intro ctx ops out h
  simp only [createFilesystems] at h
  cases hpair : filesystemParamsBySource ctx.storageDir (ops.map (·.args))
      ctx.managedFilesystemSource ctx.registry with
  | error e =>
    rw [hpair] at h
    simp [Bind.bind, Except.bind] at h
  | ok pair =>
    obtain ⟨bySource, sources⟩ := pair
    rw [hpair] at h
    simp only [Bind.bind, Except.bind] at h
    cases hloop : createLoop sources bySource with
    | error e =>
      rw [hloop] at h
      simp at h
    | ok quad =>
      obtain ⟨tr, st, rk, fss⟩ := quad
      rw [hloop] at h
      simp only at h
      cases hpub : publishCreatedFilesystems ctx fss with
      | error e =>
        rw [hpub] at h
        simp at h
      | ok pr =>
        obtain ⟨ptr, cache⟩ := pr
        rw [hpub] at h
        simp only [Except.ok.injEq] at h
        exact ⟨bySource, sources, tr, st, rk, fss, ptr, cache, rfl, hloop, hpub, h.symm⟩

theorem createProcessSource_trace :
    ∀ (n : String) (osrc : Option FilesystemSource) (fsps : List FilesystemParams)
      (tr : List Event) (st : List EntityStatusArgs) (rk : List String)
      (fss : List Filesystem),
    createProcessSource n osrc fsps = .ok (tr, st, rk, fss) →
    ∀ e ∈ tr, ∃ m ps, e = Event.createCall m ps := by
  intro n osrc fsps tr st rk fss h e he
  cases osrc with
  | none => simp [createProcessSource] at h
  | some src =>
    obtain ⟨results, -, htr, -⟩ := createProcessSource_char n src fsps tr st rk fss h
    by_cases hemp : (validateFilesystemParams src fsps).1.isEmpty
    · rw [htr, if_pos hemp] at he
      simp at he
    · rw [htr, if_neg hemp] at he
      exact ⟨_, _, List.mem_singleton.mp he⟩

theorem createLoop_trace :
    ∀ (sources : List (String × Option FilesystemSource))
      (parts : List (String × List FilesystemParams)) (tr : List Event)
      (st : List EntityStatusArgs) (rk : List String) (fss : List Filesystem),
    createLoop sources parts = .ok (tr, st, rk, fss) →
    ∀ e ∈ tr, ∃ m ps, e = Event.createCall m ps := by
  intro sources parts
  induction parts with
  | nil =>
    intro tr st rk fss h e he
    simp only [createLoop] at h
    cases h
    simp at he
  | cons part rest ih =>
    obtain ⟨sourceName, fsps⟩ := part
    intro tr st rk fss h e he
    simp only [createLoop] at h
    cases h1 : createProcessSource sourceName (joinLookup sources sourceName) fsps with
    | error e2 =>
      rw [h1] at h
      simp [Bind.bind, Except.bind] at h
    | ok q1 =>
      obtain ⟨tr1, st1, rk1, fs1⟩ := q1
      rw [h1] at h
      simp only [Bind.bind, Except.bind] at h
      cases h2 : createLoop sources rest with
      | error e2 =>
        rw [h2] at h
        simp at h
      | ok q2 =>
        obtain ⟨tr2, st2, rk2, fs2⟩ := q2
        rw [h2] at h
        simp only [Except.ok.injEq, Prod.mk.injEq] at h
        obtain ⟨htr, -, -, -⟩ := h
        subst htr
        rcases List.mem_append.mp he with h3 | h3
        · exact createProcessSource_trace _ _ _ _ _ _ _ h1 e h3
        · exact ih tr2 st2 rk2 fs2 h2 e h3

/-- Claim C4: a create parameter rejected by the source's validation gets a
status record with status `error` carrying the validation error's message, is
not included in the bulk `CreateFilesystems` call, and its operation key is
not added to the reschedule list. -/
theorem claim_C4 :
    ∀ (sourceName : String) (src : FilesystemSource) (fsps : List FilesystemParams)
      (p : FilesystemParams) (e : String) (tr : List Event)
      (st : List EntityStatusArgs) (rk : List String) (fss : List Filesystem),
    createProcessSource sourceName (some src) fsps = .ok (tr, st, rk, fss) →
    p ∈ fsps → src.validateFilesystemParams p = some e →
    (fsps.map fun q => q.tag).Nodup →
    ({ tag := filesystemTagString p.tag, status := "error", info := e } ∈ st ∧
     (∀ m ps, Event.createCall m ps ∈ tr → p ∉ ps) ∧
     p.tag ∉ rk) := by
  intro sourceName src fsps p e tr st rk fss h hp he hnodup
  obtain ⟨results, -, htr, hst, hrk, -⟩ :=
    createProcessSource_char sourceName src fsps tr st rk fss h
  have hvalid := validate_fst src fsps
  have hpnotvalid : p ∉ (validateFilesystemParams src fsps).1 := by
    rw [hvalid]
    intro hmem
    have := (List.mem_filter.mp hmem).2
    simp [he] at this
  refine ⟨?_, ?_, ?_⟩
  · rw [hst]
    refine List.mem_append.mpr (Or.inl ?_)
    refine List.mem_filterMap.mpr ⟨p, hp, ?_⟩
    simp [validationStatusOf, he]
  · intro m ps hev hpin
    rw [htr] at hev
    by_cases hemp : (validateFilesystemParams src fsps).1.isEmpty
    · rw [if_pos hemp] at hev
      simp at hev
    · rw [if_neg hemp] at hev
      have hsing := List.mem_singleton.mp hev
      injection hsing with h1 h2
      subst h2
      exact hpnotvalid hpin
  · intro hmem
    rw [hrk] at hmem
    obtain ⟨pr, hpr, htag⟩ := List.mem_map.mp hmem
    have hprzip := (List.mem_filter.mp hpr).1
    have hpr1 : pr.1 ∈ (validateFilesystemParams src fsps).1 :=
      (List.of_mem_zip hprzip).1
    have hpr1' : pr.1 ∈ fsps := by
      rw [hvalid] at hpr1
      exact List.mem_of_mem_filter hpr1
    have : pr.1 = p := List.inj_on_of_nodup_map hnodup hpr1' hp htag
    rw [this] at hpr1
    exact hpnotvalid hpr1

theorem claim_C4_witness :
    { tag := filesystemTagString "bad", status := "error", info := "invalid size" } ∈ stC4 ∧
    (∀ m ps, Event.createCall m ps ∈ trC4 → pBadC4 ∉ ps) ∧
    pBadC4.tag ∉ ([] : List String) :=
  claim_C4 "loop" rejectSource [pBadC4, pGoodC4] pBadC4 "invalid size" trC4 stC4 [] fssC4
    (by rfl) (by decide) (by decide) (by decide)

theorem publish_trace_events :
    ∀ (ctx : Context) (fss : List Filesystem) (tr : List Event)
      (cache : List (String × Filesystem)),
    publishCreatedFilesystems ctx fss = .ok (tr, cache) →
    ∀ e ∈ tr, (∃ l, e = Event.setFilesystemInfoCall l) ∨ ∃ m, e = Event.logErr m := by
  intro ctx fss tr cache h e he
  obtain ⟨hempty, hfull⟩ := publishCreatedFilesystems_char ctx fss tr cache h
  by_cases hemp : fss.isEmpty
  · obtain ⟨htr, -⟩ := hempty hemp
    subst htr
    simp at he
  · obtain ⟨errorResults, logTr, -, hlog, htr, -⟩ := hfull (by simpa using hemp)
    subst htr
    rcases List.mem_cons.mp he with hh | ht
    · exact Or.inl ⟨_, hh⟩
    · obtain ⟨m, hm⟩ := logPublishErrors_logs errorResults fss logTr hlog e ht
      exact Or.inr ⟨m, hm⟩

/-- Claim C5: per-entity interpretation of a create batch (success yields
status `attaching` and the created filesystem collected for persistence; a
per-entity error yields status `pending` with the error message and a
reschedule of the operation, and only successful results' filesystems are
collected), and at the executor level the collected filesystems are persisted
in exactly one bulk `SetFilesystemInfo` call and merged into the local
cache. -/
theorem claim_C5 :
    (∀ (sourceName : String) (src : FilesystemSource) (fsps : List FilesystemParams)
       (tr : List Event) (st : List EntityStatusArgs) (rk : List String)
       (fss : List Filesystem) (results : List CreateFilesystemsResult),
      createProcessSource sourceName (some src) fsps = .ok (tr, st, rk, fss) →
      src.createFilesystems (validateFilesystemParams src fsps).1 = .ok results →
      (∀ pr ∈ (validateFilesystemParams src fsps).1.zip results,
        (pr.2.error = none → ∃ f, pr.2.filesystem = some f ∧ f ∈ fss ∧
          { tag := filesystemTagString pr.1.tag, status := "attaching", info := "" } ∈ st) ∧
        (∀ e, pr.2.error = some e →
          { tag := filesystemTagString pr.1.tag, status := "pending", info := e } ∈ st ∧
          pr.1.tag ∈ rk)) ∧
      fss.map some = (((validateFilesystemParams src fsps).1.zip results).filter
        fun qr => qr.2.error.isNone).map (fun qr => qr.2.filesystem)) ∧
    (∀ (ctx : Context) (ops : List CreateFilesystemOp) (out : CreateExecResult),
      createFilesystems ctx ops = .ok out →
      (out.filesystems.isEmpty = true →
        out.cache = ctx.filesystems ∧
        List.countP (fun e => e.isSetFilesystemInfoCall) out.trace = 0) ∧
      (out.filesystems.isEmpty = false →
        Event.setFilesystemInfoCall (filesystemsFromStorage out.filesystems) ∈ out.trace ∧
        List.countP (fun e => e.isSetFilesystemInfoCall) out.trace = 1 ∧
        out.cache = out.filesystems.foldl updateFilesystem ctx.filesystems)) := by
  constructor
  · intro sourceName src fsps tr st rk fss results h hres
    obtain ⟨results2, hres2, htr, hst, hrk, hfss⟩ :=
      createProcessSource_char sourceName src fsps tr st rk fss h
    have hresults : (validateFilesystemParams src fsps).1.zip results2 =
        (validateFilesystemParams src fsps).1.zip results := by
      by_cases hemp : (validateFilesystemParams src fsps).1.isEmpty
      · have hnil := List.isEmpty_iff.mp hemp
        rw [hnil]
        simp
      · have := hres2 (by simpa using hemp)
        rw [hres] at this
        simp only [Except.ok.injEq] at this
        rw [this]
    rw [hresults] at hst hrk hfss
    refine ⟨?_, hfss⟩
    intro pr hpr
    constructor
    · intro hok
      have hptr : pr.2.filesystem ∈ fss.map some := by
        rw [hfss]
        refine List.mem_map.mpr ⟨pr, ?_, rfl⟩
        refine List.mem_filter.mpr ⟨hpr, ?_⟩
        simp [hok]
      obtain ⟨f, hfmem, hf⟩ := List.mem_map.mp hptr
      refine ⟨f, hf.symm, hfmem, ?_⟩
      rw [hst]
      refine List.mem_append.mpr (Or.inr ?_)
      refine List.mem_map.mpr ⟨pr, hpr, ?_⟩
      simp [createStatusOf, hok]
    · intro e he
      constructor
      · rw [hst]
        refine List.mem_append.mpr (Or.inr ?_)
        refine List.mem_map.mpr ⟨pr, hpr, ?_⟩
        simp [createStatusOf, he]
      · rw [hrk]
        refine List.mem_map.mpr ⟨pr, ?_, rfl⟩
        refine List.mem_filter.mpr ⟨hpr, ?_⟩
        simp [he]
  · intro ctx ops out h
    obtain ⟨bySource, sources, tr, st, rk, fss, ptr, cache, -, hloop, hpub, hout⟩ :=
      createFilesystems_unfold ctx ops out h
    subst hout
    obtain ⟨hempty, hfull⟩ := publishCreatedFilesystems_char ctx fss ptr cache hpub
    have htrpred : ∀ e ∈ tr, (fun e => Event.isSetFilesystemInfoCall e) e = false := by
      intro e he
      obtain ⟨m, ps, hcc⟩ := createLoop_trace sources bySource tr st rk fss hloop e he
      subst hcc
      rfl
    constructor
    · intro hemp
      obtain ⟨hptr, hcache⟩ := hempty hemp
      subst hptr
      refine ⟨hcache, ?_⟩
      rw [List.countP_eq_zero]
      intro e he
      simp only [List.append_assoc, List.mem_append] at he
      rcases he with h1 | h1
      · simp [htrpred e h1]
      · rcases h1 with h2 | h2
        · rcases List.mem_cons.mp h2 with h3 | h3
          · subst h3
            simp [Event.isSetFilesystemInfoCall]
          · have h4 := List.mem_singleton.mp h3
            subst h4
            simp [Event.isSetFilesystemInfoCall]
        · simp at h2
    · intro hemp
      obtain ⟨errorResults, logTr, -, hlog, hptr, hcache⟩ := hfull hemp
      subst hptr
      refine ⟨?_, ?_, hcache⟩
      · simp
      · rw [List.countP_append, List.countP_append]
        have h1 : List.countP (fun e => e.isSetFilesystemInfoCall) tr = 0 := by
          rw [List.countP_eq_zero]
          intro e he
          simp [htrpred e he]
        have h2 : List.countP (fun e => e.isSetFilesystemInfoCall)
            [Event.scheduleOpsFs rk, Event.setStatusCall st] = 0 := by
          simp [List.countP_cons, Event.isSetFilesystemInfoCall]
        have h3 : List.countP (fun e => e.isSetFilesystemInfoCall)
            (Event.setFilesystemInfoCall (filesystemsFromStorage fss) :: logTr) = 1 := by
          have h4 : List.countP (fun e => e.isSetFilesystemInfoCall) logTr = 0 := by
            rw [List.countP_eq_zero]
            intro e he
            obtain ⟨m, hm⟩ := logPublishErrors_logs errorResults fss logTr hlog e he
            subst hm
            simp [Event.isSetFilesystemInfoCall]
          rw [List.countP_cons, h4]
          simp [Event.isSetFilesystemInfoCall]
        rw [h1, h2, h3]

theorem claim_C5_witness :
    ∃ f, (some fsC5 : Option Filesystem) = some f ∧ f ∈ [fsC5] ∧
      { tag := filesystemTagString pC5.tag, status := "attaching", info := "" } ∈ stC5w :=
  ((claim_C5.1 "loop" okSource [pC5] [Event.createCall "loop" [pC5]] stC5w [] [fsC5] resC5
      (by rfl) (by rfl)).1 (pC5, { filesystem := some fsC5, error := none }) (by decide)).1 rfl

/-- Claim C6: with validated-out entities present, the bulk call submits
exactly the parameters that passed validation, in order, and the i-th result
is attributed to the i-th passing parameter: statuses, reschedule keys and
collected filesystems are all computed from the positional zip of the
filtered parameter list with the result list. -/
theorem claim_C6 :
    ∀ (sourceName : String) (src : FilesystemSource) (fsps : List FilesystemParams)
      (tr : List Event) (st : List EntityStatusArgs) (rk : List String)
      (fss : List Filesystem) (results : List CreateFilesystemsResult),
    createProcessSource sourceName (some src) fsps = .ok (tr, st, rk, fss) →
    src.createFilesystems (fsps.filter fun p => (src.validateFilesystemParams p).isNone) =
      .ok results →
    ((validateFilesystemParams src fsps).1 =
       fsps.filter (fun p => (src.validateFilesystemParams p).isNone) ∧
     st = fsps.filterMap (validationStatusOf src) ++
       ((fsps.filter fun p => (src.validateFilesystemParams p).isNone).zip results).map
         createStatusOf ∧
     rk = (((fsps.filter fun p => (src.validateFilesystemParams p).isNone).zip results).filter
             fun pr => pr.2.error.isSome).map (fun pr => pr.1.tag) ∧
     fss.map some =
       (((fsps.filter fun p => (src.validateFilesystemParams p).isNone).zip results).filter
             fun pr => pr.2.error.isNone).map (fun pr => pr.2.filesystem)) := by
  intro sourceName src fsps tr st rk fss results h hres
  have hval := validate_fst src fsps
  obtain ⟨results2, hres2, -, hst, hrk, hfss⟩ :=
    createProcessSource_char sourceName src fsps tr st rk fss h
  have hresults : (validateFilesystemParams src fsps).1.zip results2 =
      (validateFilesystemParams src fsps).1.zip results := by
    by_cases hemp : (validateFilesystemParams src fsps).1.isEmpty
    · have hnil := List.isEmpty_iff.mp hemp
      rw [hnil]
      simp
    · have h2 := hres2 (by simpa using hemp)
      rw [hval] at h2
      rw [hres] at h2
      simp only [Except.ok.injEq] at h2
      rw [h2]
  rw [hresults, hval] at hst hrk hfss
  exact ⟨hval, hst, hrk, hfss⟩

theorem claim_C6_witness :
    (validateFilesystemParams rejectSource [pBadC4, pGoodC4]).1 =
      [pBadC4, pGoodC4].filter (fun p => (rejectSource.validateFilesystemParams p).isNone) ∧
    stC4 = [pBadC4, pGoodC4].filterMap (validationStatusOf rejectSource) ++
      (([pBadC4, pGoodC4].filter fun p =>
          (rejectSource.validateFilesystemParams p).isNone).zip resC6).map createStatusOf ∧
    ([] : List String) = ((([pBadC4, pGoodC4].filter fun p =>
          (rejectSource.validateFilesystemParams p).isNone).zip resC6).filter
        fun pr => pr.2.error.isSome).map (fun pr => pr.1.tag) ∧
    fssC4.map some = ((([pBadC4, pGoodC4].filter fun p =>
          (rejectSource.validateFilesystemParams p).isNone).zip resC6).filter
        fun pr => pr.2.error.isNone).map (fun pr => pr.2.filesystem) :=
  claim_C6 "loop" rejectSource [pBadC4, pGoodC4] trC4 stC4 [] fssC4 resC6 (by rfl) (by rfl)

/-- Claim C1 counterexample: the controller call returns a nil top-level
transport error with a per-entity error inside, yet `attachFilesystems`
returns a non-nil error instead of logging and returning nil. -/
theorem claim_C1_counterexample :
    ctxC1ce.setFilesystemAttachmentInfoApi
      (filesystemAttachmentsFromStorage
        [{ filesystem := "fs-0", machine := "1", path := "/storage/fs-0", readOnly := false }]) =
      .ok [some "rejected"] ∧
    attachFilesystems ctxC1ce [aopC1] =
      .error "publishing attachment of filesystem-fs-0 to machine-1 to state: rejected" :=
  ⟨rfl, rfl⟩

/-- Claim C1 (amended): when the controller persistence call returns a nil
top-level transport error, per-entity errors are logged individually and do
not abort the pass for `createFilesystems` (`SetFilesystemInfo`); for
`attachFilesystems`, the first per-entity error in the
`SetFilesystemAttachmentInfo` results aborts the pass with a non-nil
annotated error instead of being logged. -/
theorem claim_C1 :
    (∀ (ctx : Context) (fss : List Filesystem) (errs : List (Option String)),
      fss.isEmpty = false →
      ctx.setFilesystemInfoApi (filesystemsFromStorage fss) = .ok errs →
      errs.length ≤ fss.length →
      ∃ tr, publishCreatedFilesystems ctx fss =
          .ok (tr, fss.foldl updateFilesystem ctx.filesystems) ∧
        ∀ f e, (f, some e) ∈ fss.zip errs →
          Event.logErr ("publishing filesystem " ++ f.tag ++ " to state: " ++ e) ∈ tr) ∧
    (∀ (ctx : Context) (fas : List FilesystemAttachment) (errs : List (Option String))
       (e : String),
      fas.isEmpty = false →
      ctx.setFilesystemAttachmentInfoApi (filesystemAttachmentsFromStorage fas) = .ok errs →
      some e ∈ errs →
      ∃ msg, setFilesystemAttachmentInfo ctx fas = .error msg) := by
  constructor
  · intro ctx fss errs hemp hok hlen
    obtain ⟨tr0, hlog, hmem⟩ := logPublishErrors_ok errs fss hlen
    refine ⟨Event.setFilesystemInfoCall (filesystemsFromStorage fss) :: tr0, ?_, ?_⟩
    · simp only [publishCreatedFilesystems]
      rw [if_neg (by simp [hemp])]
      rw [hok]
      simp only
      rw [hlog]
      simp [Bind.bind, Except.bind]
    · intro f e hmemzip
      exact List.mem_cons_of_mem _ (hmem f e hmemzip)
  · exact setFilesystemAttachmentInfo_aborts

theorem claim_C1_witness :
    ∃ tr, publishCreatedFilesystems ctxC1w [fsC1w] =
        .ok (tr, [fsC1w].foldl updateFilesystem ctxC1w.filesystems) ∧
      ∀ f e, (f, some e) ∈ [fsC1w].zip [some "r1"] →
        Event.logErr ("publishing filesystem " ++ f.tag ++ " to state: " ++ e) ∈ tr :=
  claim_C1.1 ctxC1w [fsC1w] [some "r1"] (by rfl) (by rfl) (by decide)

/-- Claim C2 counterexample: on the attachment partitioning path a parameter
of a non-dynamic provider is not dropped from the partitions — the whole call
aborts with an error. -/
theorem claim_C2_counterexample :
    filesystemAttachmentParamsBySource "/d" [apC2] cacheC2 okSource
      (fun _ => SourceResolution.nonDynamic) =
    .error ("getting filesystem source: " ++ errNonDynamicMsg) := rfl

/-- Claim C2 (amended): on the creation partitioning path the union of the
per-source partitions equals the input minus exactly the parameters whose
resolved source is nil, and a nil source is recorded only when the registry
resolved the provider as non-dynamic (such parameters are dropped without an
error); on the attachment partitioning path nothing is dropped — the union of
the partitions is always the whole input. -/
theorem claim_C2 :
    (∀ (dir : String) (ps : List FilesystemParams) (managed : FilesystemSource)
       (reg : String → SourceResolution)
       (bySource : List (String × List FilesystemParams))
       (sources : List (String × Option FilesystemSource)),
      filesystemParamsBySource dir ps managed reg = .ok (bySource, sources) →
      List.Perm (unionParts bySource)
        (ps.filter fun p => (joinLookup sources p.provider).isSome) ∧
      ∀ p ∈ ps, (joinLookup sources p.provider).isSome = false →
        lookupA sources p.provider = some none ∧
        reg p.provider = SourceResolution.nonDynamic) ∧
    (∀ (dir : String) (aps : List FilesystemAttachmentParams)
       (cache : List (String × Filesystem)) (managed : FilesystemSource)
       (reg : String → SourceResolution)
       (bySource : List (String × List FilesystemAttachmentParams))
       (sources : List (String × Option FilesystemSource)),
      filesystemAttachmentParamsBySource dir aps cache managed reg = .ok (bySource, sources) →
      List.Perm (unionParts bySource) aps) := by
  constructor
  · intro dir ps managed reg bySource sources h
    simp only [filesystemParamsBySource] at h
    cases hbuild : buildFilesystemSources managed reg ps [] with
    | error e =>
      rw [hbuild] at h
      simp [Bind.bind, Except.bind] at h
    | ok sources2 =>
      rw [hbuild] at h
      simp only [Bind.bind, Except.bind, Except.ok.injEq, Prod.mk.injEq] at h
      obtain ⟨hby, hsrc⟩ := h
      subst hsrc
      subst hby
      constructor
      · have hperm := partitionBySources_perm sources2 ps []
        simpa [unionParts] using hperm
      · intro p hp hnone
        have hcov := buildFS_covers managed reg ps [] sources2 hbuild p hp
        have hlk : ∃ v, lookupA sources2 p.provider = some v := by
          simpa [containsA, Option.isSome_iff_exists] using hcov
        obtain ⟨v, hv⟩ := hlk
        have hvnone : v = none := by
          cases v with
          | none => rfl
          | some src =>
            rw [joinLookup, hv] at hnone
            simp at hnone
        subst hvnone
        refine ⟨hv, ?_⟩
        exact buildFS_none_nonDynamic managed reg ps [] sources2 hbuild
          (by intro e he; simp at he) (p.provider, none) (mem_of_lookupA hv) rfl
  · intro dir aps cache managed reg bySource sources h
    simp only [filesystemAttachmentParamsBySource] at h
    have := buildAB_union cache managed reg aps [] [] bySource sources h
    simpa [unionParts] using this

theorem claim_C2_witness :
    List.Perm (unionParts [("loop", [pDynC2])])
      ([pDynC2, pNdC2].filter fun p => (joinLookup sourcesC2 p.provider).isSome) ∧
    ∀ p ∈ [pDynC2, pNdC2], (joinLookup sourcesC2 p.provider).isSome = false →
      lookupA sourcesC2 p.provider = some none ∧
      regC2 p.provider = SourceResolution.nonDynamic :=
  claim_C2.1 "/d" [pDynC2, pNdC2] okSource regC2 [("loop", [pDynC2])] sourcesC2 (by rfl)

/-- Claim C3: an attach operation with an empty mount path has its path
synthesized by joining the storage directory with the filesystem tag's id,
and a non-empty supplied path is passed through unchanged; concretely, with
storage directory `/storage` and filesystem id `fs-0` the synthesized path is
`/storage/fs-0` and that path is what reaches the provider. -/
theorem claim_C3 :
    (∀ (dir : String) (ops : List AttachFilesystemOp) (i : Nat) (op : AttachFilesystemOp),
      ops[i]? = some op →
      (attachArgs dir ops)[i]? = some
        (if op.args.path = "" then
          { op.args with path := filepathJoin dir op.args.filesystem }
        else op.args)) ∧
    filepathJoin "/storage" "fs-0" = "/storage/fs-0" ∧
    (∃ out, attachFilesystems baseContext [aopC3] = .ok out ∧
      Event.attachCall "loop" [apSynthC3] ∈ out.trace) := by
  refine ⟨?_, rfl, ⟨outC3, rfl, List.mem_cons_self _ _⟩⟩
  intro dir ops i op h
  rw [attachArgs, List.getElem?_map, h]
  rfl

theorem claim_C3_witness :
    (attachArgs "/storage" [aopC3])[0]? = some
      (if aopC3.args.path = "" then
        { aopC3.args with path := filepathJoin "/storage" aopC3.args.filesystem }
      else aopC3.args) :=
  claim_C3.1 "/storage" [aopC3] 0 aopC3 (by rfl)

theorem partitionRemoveGo_char :
    ∀ pairs : List (String × RemoveFilesystemParams),
    partitionRemoveGo pairs =
      ((pairs.filter fun tp => tp.2.destroy).map Prod.fst,
       (pairs.filter fun tp => tp.2.destroy).map (fun tp => tp.2.filesystemId),
       (pairs.filter fun tp => !tp.2.destroy).map Prod.fst,
       (pairs.filter fun tp => !tp.2.destroy).map (fun tp => tp.2.filesystemId)) := by
  intro pairs
  induction pairs with
  | nil => simp [partitionRemoveGo]
  | cons tp rest ih =>
    obtain ⟨tag, args⟩ := tp
    by_cases hd : args.destroy
    · simp [partitionRemoveGo, ih, List.filter_cons, hd]
    · simp [partitionRemoveGo, ih, List.filter_cons, hd]

theorem interpretRemoveResults_char :
    ∀ (errs : List (Option String)) (tags rm rs : List String)
      (st : List EntityStatusArgs),
    interpretRemoveResults tags errs = .ok (rm, rs, st) →
    rm = ((tags.zip errs).filter fun te => te.2.isNone).map Prod.fst ∧
    rs = ((tags.zip errs).filter fun te => te.2.isSome).map Prod.fst ∧
    st = (tags.zip errs).filterMap (fun te => te.2.map fun msg =>
      { tag := filesystemTagString te.1, status := "destroying", info := msg }) := by
  intro errs
  induction errs with
  | nil =>
    intro tags rm rs st h
    simp only [interpretRemoveResults] at h
    cases h
    simp
  | cons e es ih =>
    intro tags rm rs st h
    cases tags with
    | nil => simp [interpretRemoveResults] at h
    | cons t ts =>
      simp only [interpretRemoveResults] at h
      cases hrec : interpretRemoveResults ts es with
      | error e2 =>
        rw [hrec] at h
        simp [Bind.bind, Except.bind] at h
      | ok triple =>
        obtain ⟨rm2, rs2, st2⟩ := triple
        rw [hrec] at h
        obtain ⟨h1, h2, h3⟩ := ih ts rm2 rs2 st2 hrec
        cases e with
        | none =>
          simp only [Bind.bind, Except.bind, Except.ok.injEq, Prod.mk.injEq] at h
          obtain ⟨ha, hb, hc⟩ := h
          subst ha
          subst hb
          subst hc
          refine ⟨?_, ?_, ?_⟩
          · simp [List.zip_cons_cons, List.filter_cons, h1]
          · simp [List.zip_cons_cons, List.filter_cons, h2]
          · simp [List.zip_cons_cons, List.filterMap_cons, h3]
        | some msg =>
          simp only [Bind.bind, Except.bind, Except.ok.injEq, Prod.mk.injEq] at h
          obtain ⟨ha, hb, hc⟩ := h
          subst ha
          subst hb
          subst hc
          refine ⟨?_, ?_, ?_⟩
          · simp [List.zip_cons_cons, List.filter_cons, h1]
          · simp [List.zip_cons_cons, List.filter_cons, h2]
          · simp [List.zip_cons_cons, List.filterMap_cons, h3]

/-- Claim C7: the removal partition splits the zipped requests exactly by the
destroy flag (the two sub-batches are disjoint as positional sub-lists and
their union is a permutation of the N input tags); the destroy sub-batch ids
go to `DestroyFilesystems` and the release sub-batch ids to
`ReleaseFilesystems`; interpreting per-entity results, a success of either
kind queues the tag for removal from state, while a failure reschedules the
tag with status `destroying` carrying the error message. -/
theorem claim_C7 :
    (∀ (removeTags : List String) (removeParams : List RemoveFilesystemParams),
      partitionRemoveFilesystemParams removeTags removeParams =
        (((removeTags.zip removeParams).filter fun tp => tp.2.destroy).map Prod.fst,
         ((removeTags.zip removeParams).filter fun tp => tp.2.destroy).map
           (fun tp => tp.2.filesystemId),
         ((removeTags.zip removeParams).filter fun tp => !tp.2.destroy).map Prod.fst,
         ((removeTags.zip removeParams).filter fun tp => !tp.2.destroy).map
           (fun tp => tp.2.filesystemId))) ∧
    (∀ (removeTags : List String) (removeParams : List RemoveFilesystemParams),
      removeTags.length = removeParams.length →
      (((removeTags.zip removeParams).filter fun tp => tp.2.destroy).map Prod.fst).length +
        (((removeTags.zip removeParams).filter fun tp => !tp.2.destroy).map Prod.fst).length =
        removeTags.length ∧
      List.Perm
        (((removeTags.zip removeParams).filter fun tp => tp.2.destroy).map Prod.fst ++
         ((removeTags.zip removeParams).filter fun tp => !tp.2.destroy).map Prod.fst)
        removeTags) ∧
    (∀ (byTag : List (String × RemoveFilesystemParams)) (sourceName : String)
       (src : FilesystemSource) (fsps : List FilesystemParams)
       (tr : List Event) (rm rs : List String) (st : List EntityStatusArgs),
      removeProcessSource byTag sourceName (some src) fsps = .ok (tr, rm, rs, st) →
      ∃ dt di rt ri,
        partitionRemoveFilesystemParams (fsps.map fun p => p.tag)
          (fsps.map fun p => (lookupA byTag p.tag).getD zeroRemoveFilesystemParams) =
          (dt, di, rt, ri) ∧
        tr = (if di.isEmpty then [] else [Event.destroyCall sourceName di]) ++
             (if ri.isEmpty then [] else [Event.releaseCall sourceName ri])) ∧
    (∀ (tags : List String) (errs : List (Option String)) (rm rs : List String)
       (st : List EntityStatusArgs),
      interpretRemoveResults tags errs = .ok (rm, rs, st) →
      rm = ((tags.zip errs).filter fun te => te.2.isNone).map Prod.fst ∧
      rs = ((tags.zip errs).filter fun te => te.2.isSome).map Prod.fst ∧
      st = (tags.zip errs).filterMap (fun te => te.2.map fun msg =>
        { tag := filesystemTagString te.1, status := "destroying", info := msg })) := by
  refine ⟨?_, ?_, ?_, ?_⟩
  · intro removeTags removeParams
    rw [partitionRemoveFilesystemParams]
    exact partitionRemoveGo_char (removeTags.zip removeParams)
  · intro removeTags removeParams hlen
    have hsplit := List.filter_append_perm (fun tp => tp.2.destroy) (removeTags.zip removeParams)
    have hzlen : (removeTags.zip removeParams).length = removeTags.length := by
      rw [List.length_zip, hlen, Nat.min_self]
    constructor
    · have := hsplit.length_eq
      rw [List.length_append] at this
      simp only [List.length_map]
      rw [this, hzlen]
    · have hmap : List.Perm
          ((((removeTags.zip removeParams).filter fun tp => tp.2.destroy) ++
            ((removeTags.zip removeParams).filter fun tp => !tp.2.destroy)).map Prod.fst)
          ((removeTags.zip removeParams).map Prod.fst) := hsplit.map Prod.fst
      rw [List.map_append] at hmap
      have hfst : (removeTags.zip removeParams).map Prod.fst = removeTags :=
        List.map_fst_zip removeTags removeParams (by rw [hlen])
      rw [hfst] at hmap
      exact hmap
  · intro byTag sourceName src fsps tr rm rs st h
    simp only [removeProcessSource] at h
    rcases hpart : partitionRemoveFilesystemParams (fsps.map fun p => p.tag)
        (fsps.map fun p => (lookupA byTag p.tag).getD zeroRemoveFilesystemParams) with
      ⟨dt, di, rt, ri⟩
    rw [hpart] at h
    simp only at h
    cases hd : removeOneKind src.destroyFilesystems dt di with
    | error e =>
      rw [hd] at h
      simp at h
    | ok triple1 =>
      obtain ⟨rm1, rs1, st1⟩ := triple1
      rw [hd] at h
      simp only at h
      cases hr : removeOneKind src.releaseFilesystems rt ri with
      | error e =>
        rw [hr] at h
        simp at h
      | ok triple2 =>
        obtain ⟨rm2, rs2, st2⟩ := triple2
        rw [hr] at h
        simp only [Except.ok.injEq, Prod.mk.injEq] at h
        exact ⟨dt, di, rt, ri, hpart, h.1.symm⟩
  · exact fun tags errs => interpretRemoveResults_char errs tags

theorem claim_C7_witness :
    (["a"] : List String) =
      (((["a", "b"].zip [none, some "x"]).filter fun te => te.2.isNone).map Prod.fst) ∧
    (["b"] : List String) =
      (((["a", "b"].zip [none, some "x"]).filter fun te => te.2.isSome).map Prod.fst) ∧
    ([{ tag := filesystemTagString "b", status := "destroying", info := "x" }] :
        List EntityStatusArgs) =
      (["a", "b"].zip [none, some "x"]).filterMap (fun te => te.2.map fun msg =>
        { tag := filesystemTagString te.1, status := "destroying", info := msg }) :=
  claim_C7.2.2.2 ["a", "b"] [none, some "x"] ["a"] ["b"]
    [{ tag := filesystemTagString "b", status := "destroying", info := "x" }] (by rfl)

/-- Claim C8: in the detach pass, a per-source batch whose source name has no
resolved filesystem source is skipped (with only a critical log line and no
provider call, statuses, reschedules or removals) when the model is a CAAS
model, and the loop continues with the remaining sources; without the CAAS
flag the same miss fails the pass. -/
theorem claim_C8 :
    (∀ (sources : List (String × Option FilesystemSource)) (sourceName : String)
       (aps : List FilesystemAttachmentParams),
      lookupA sources sourceName = none →
      detachProcessSource true sources sourceName aps =
        .ok ([Event.logCritical sourceName], [], [], [])) ∧
    (∀ (sources : List (String × Option FilesystemSource)) (sourceName : String)
       (aps : List FilesystemAttachmentParams)
       (rest : List (String × List FilesystemAttachmentParams)),
      lookupA sources sourceName = none →
      detachLoop true sources ((sourceName, aps) :: rest) =
        (detachLoop true sources rest).map
          (fun out => (Event.logCritical sourceName :: out.1, out.2))) ∧
    (∀ (sources : List (String × Option FilesystemSource)) (sourceName : String)
       (aps : List FilesystemAttachmentParams),
      lookupA sources sourceName = none →
      detachProcessSource false sources sourceName aps =
        .error ("panic: nil filesystem source for " ++ sourceName)) := by
  have hskip : ∀ (sources : List (String × Option FilesystemSource)) (sourceName : String)
      (aps : List FilesystemAttachmentParams),
      lookupA sources sourceName = none →
      detachProcessSource true sources sourceName aps =
        .ok ([Event.logCritical sourceName], [], [], []) := by
    intro sources sourceName aps h
    simp [detachProcessSource, h]
  refine ⟨hskip, ?_, ?_⟩
  · intro sources sourceName aps rest h
    simp only [detachLoop]
    rw [hskip sources sourceName aps h]
    cases hrest : detachLoop true sources rest with
    | error e => simp [Bind.bind, Except.bind, Except.map]
    | ok out =>
      obtain ⟨tr2, st2, rk2, rm2⟩ := out
      simp [Bind.bind, Except.bind, Except.map]
  · intro sources sourceName aps h
    simp [detachProcessSource, h]

theorem claim_C8_witness :
    detachProcessSource true [] "s" [] =
      .ok ([Event.logCritical "s"], [], [], []) :=
  claim_C8.1 [] "s" [] (by rfl)

/-- Claim C10 counterexample: `p2C10`'s filesystem is absent from the cache,
yet its provider resolves to the registry's dynamic source (provider
resolution happened at the first occurrence, `p1C10`, which was cached with
an empty volume), not to the managed source. -/
theorem claim_C10_counterexample :
    filesystemAttachmentParamsBySource "/d" [p1C10, p2C10] cacheC10 okSource regC10 =
      .ok ([("p", [p1C10, p2C10])], [("p", some dynMarker)]) ∧
    lookupA cacheC10 p2C10.filesystem = none ∧
    ∀ s, lookupA [("p", some dynMarker)] p2C10.provider = some (some s) → s ≠ okSource := by
  refine ⟨rfl, rfl, ?_⟩
  intro s hs heq
  have hes : dynMarker = s := by
    simpa [lookupA, p2C10] using hs
  rw [heq] at hes
  have hval : dynMarker.validateFilesystemParams zeroFilesystemParams =
      okSource.validateFilesystemParams zeroFilesystemParams := by
    rw [hes]
  simp [dynMarker, okSource] at hval

/-- Claim C10 (amended): an attachment parameter that is the first of its
provider in the batch and whose filesystem is absent from the local cache (or
cached with a non-empty backing volume) has its provider resolved to the
managed filesystem source, for any registry whatsoever; a later parameter of
an already-resolved provider reuses that resolution, so the per-parameter
reading fails (see the counterexample). -/
theorem claim_C10 :
    ∀ (dir : String) (pre : List FilesystemAttachmentParams)
      (q : FilesystemAttachmentParams) (post : List FilesystemAttachmentParams)
      (cache : List (String × Filesystem)) (managed : FilesystemSource)
      (reg : String → SourceResolution)
      (bySource : List (String × List FilesystemAttachmentParams))
      (sources : List (String × Option FilesystemSource)),
    filesystemAttachmentParamsBySource dir (pre ++ q :: post) cache managed reg =
      .ok (bySource, sources) →
    (∀ r ∈ pre, r.provider ≠ q.provider) →
    (∀ f, lookupA cache q.filesystem = some f → f.volume ≠ "") →
    lookupA sources q.provider = some (some managed) := by
  intro dir pre q post cache managed reg bySource sources h hpre hf
  exact buildAB_first_managed cache managed reg pre q post [] [] bySource sources
    (by simpa [filesystemAttachmentParamsBySource] using h) hpre (by simp [containsA, lookupA]) hf

theorem claim_C10_witness :
    lookupA [("p", some okSource)] qC10.provider = some (some okSource) :=
  claim_C10 "/d" [] qC10 [] [] okSource regPoison [("p", [qC10])] [("p", some okSource)]
    (by rfl) (by simp) (by intro f hf; simp [lookupA] at hf)

theorem attachProcessSource_trace :
    ∀ (n : String) (osrc : Option FilesystemSource)
      (aps : List FilesystemAttachmentParams) (tr : List Event)
      (st : List EntityStatusArgs) (rk : List MachineStorageId)
      (fas : List FilesystemAttachment),
    attachProcessSource n osrc aps = .ok (tr, st, rk, fas) →
    ∀ e ∈ tr, e.isScheduleEv = false ∧ e.isSetStatusEv = false := by
  intro n osrc aps tr st rk fas h e he
  cases osrc with
  | none => simp [attachProcessSource] at h
  | some src =>
    simp only [attachProcessSource] at h
    cases hres : src.attachFilesystems aps with
    | error e2 =>
      rw [hres] at h
      simp at h
    | ok results =>
      rw [hres] at h
      simp only at h
      cases hint : interpretAttachResults aps results with
      | error e2 =>
        rw [hint] at h
        simp [Bind.bind, Except.bind] at h
      | ok t =>
        obtain ⟨st2, rk2, fa2⟩ := t
        rw [hint] at h
        simp only [Bind.bind, Except.bind, Except.ok.injEq, Prod.mk.injEq] at h
        obtain ⟨htr, -, -, -⟩ := h
        subst htr
        have : e = Event.attachCall n aps := List.mem_singleton.mp he
        subst this
        exact ⟨rfl, rfl⟩

theorem attachLoop_trace :
    ∀ (sources : List (String × Option FilesystemSource))
      (parts : List (String × List FilesystemAttachmentParams)) (tr : List Event)
      (st : List EntityStatusArgs) (rk : List MachineStorageId)
      (fas : List FilesystemAttachment),
    attachLoop sources parts = .ok (tr, st, rk, fas) →
    ∀ e ∈ tr, e.isScheduleEv = false ∧ e.isSetStatusEv = false := by
  intro sources parts
  induction parts with
  | nil =>
    intro tr st rk fas h e he
    simp only [attachLoop] at h
    cases h
    simp at he
  | cons part rest ih =>
    obtain ⟨sourceName, aps⟩ := part
    intro tr st rk fas h e he
    simp only [attachLoop] at h
    cases h1 : attachProcessSource sourceName (joinLookup sources sourceName) aps with
    | error e2 =>
      rw [h1] at h
      simp [Bind.bind, Except.bind] at h
    | ok q1 =>
      obtain ⟨tr1, st1, rk1, fa1⟩ := q1
      rw [h1] at h
      simp only [Bind.bind, Except.bind] at h
      cases h2 : attachLoop sources rest with
      | error e2 =>
        rw [h2] at h
        simp at h
      | ok q2 =>
        obtain ⟨tr2, st2, rk2, fa2⟩ := q2
        rw [h2] at h
        simp only [Except.ok.injEq, Prod.mk.injEq] at h
        obtain ⟨htr, -, -, -⟩ := h
        subst htr
        rcases List.mem_append.mp he with h3 | h3
        · exact attachProcessSource_trace _ _ _ _ _ _ _ h1 e h3
        · exact ih tr2 st2 rk2 fa2 h2 e h3

theorem detachProcessSource_trace :
    ∀ (caas : Bool) (sources : List (String × Option FilesystemSource)) (n : String)
      (aps : List FilesystemAttachmentParams) (tr : List Event)
      (st : List EntityStatusArgs) (rk rm : List MachineStorageId),
    detachProcessSource caas sources n aps = .ok (tr, st, rk, rm) →
    ∀ e ∈ tr, e.isScheduleEv = false ∧ e.isSetStatusEv = false := by
  intro caas sources n aps tr st rk rm h e he
  simp only [detachProcessSource] at h
  cases hl : lookupA sources n with
  | none =>
    rw [hl] at h
    simp only at h
    cases caas with
    | false => simp at h
    | true =>
      simp at h
      obtain ⟨htr, -, -, -⟩ := h
      subst htr
      have : e = Event.logCritical n := List.mem_singleton.mp he
      subst this
      exact ⟨rfl, rfl⟩
  | some osrc =>
    cases osrc with
    | none =>
      rw [hl] at h
      simp at h
    | some src =>
      rw [hl] at h
      simp only at h
      cases hres : src.detachFilesystems aps with
      | error e2 =>
        rw [hres] at h
        simp at h
      | ok errs =>
        rw [hres] at h
        simp only at h
        cases hint : interpretDetachResults aps errs with
        | error e2 =>
          rw [hint] at h
          simp [Bind.bind, Except.bind] at h
        | ok t =>
          obtain ⟨st2, rk2, rm2⟩ := t
          rw [hint] at h
          simp only [Bind.bind, Except.bind, Except.ok.injEq, Prod.mk.injEq] at h
          obtain ⟨htr, -, -, -⟩ := h
          subst htr
          have : e = Event.detachCall n aps := List.mem_singleton.mp he
          subst this
          exact ⟨rfl, rfl⟩

theorem detachLoop_trace :
    ∀ (caas : Bool) (sources : List (String × Option FilesystemSource))
      (parts : List (String × List FilesystemAttachmentParams)) (tr : List Event)
      (st : List EntityStatusArgs) (rk rm : List MachineStorageId),
    detachLoop caas sources parts = .ok (tr, st, rk, rm) →
    ∀ e ∈ tr, e.isScheduleEv = false ∧ e.isSetStatusEv = false := by
  intro caas sources parts
  induction parts with
  | nil =>
    intro tr st rk rm h e he
    simp only [detachLoop] at h
    cases h
    simp at he
  | cons part rest ih =>
    obtain ⟨sourceName, aps⟩ := part
    intro tr st rk rm h e he
    simp only [detachLoop] at h
    cases h1 : detachProcessSource caas sources sourceName aps with
    | error e2 =>
      rw [h1] at h
      simp [Bind.bind, Except.bind] at h
    | ok q1 =>
      obtain ⟨tr1, st1, rk1, rm1⟩ := q1
      rw [h1] at h
      simp only [Bind.bind, Except.bind] at h
      cases h2 : detachLoop caas sources rest with
      | error e2 =>
        rw [h2] at h
        simp at h
      | ok q2 =>
        obtain ⟨tr2, st2, rk2, rm2⟩ := q2
        rw [h2] at h
        simp only [Except.ok.injEq, Prod.mk.injEq] at h
        obtain ⟨htr, -, -, -⟩ := h
        subst htr
        rcases List.mem_append.mp he with h3 | h3
        · exact detachProcessSource_trace _ _ _ _ _ _ _ _ h1 e h3
        · exact ih tr2 st2 rk2 rm2 h2 e h3

theorem removeProcessSource_trace :
    ∀ (byTag : List (String × RemoveFilesystemParams)) (n : String)
      (osrc : Option FilesystemSource) (fsps : List FilesystemParams)
      (tr : List Event) (rm rs : List String) (st : List EntityStatusArgs),
    removeProcessSource byTag n osrc fsps = .ok (tr, rm, rs, st) →
    ∀ e ∈ tr, e.isScheduleEv = false ∧ e.isSetStatusEv = false := by
  intro byTag n osrc fsps tr rm rs st h e he
  cases osrc with
  | none => simp [removeProcessSource] at h
  | some src =>
    simp only [removeProcessSource] at h
    rcases hpart : partitionRemoveFilesystemParams (fsps.map fun p => p.tag)
        (fsps.map fun p => (lookupA byTag p.tag).getD zeroRemoveFilesystemParams) with
      ⟨dt, di, rt, ri⟩
    rw [hpart] at h
    simp only at h
    cases hd : removeOneKind src.destroyFilesystems dt di with
    | error e2 =>
      rw [hd] at h
      simp at h
    | ok triple1 =>
      obtain ⟨rm1, rs1, st1⟩ := triple1
      rw [hd] at h
      simp only at h
      cases hr : removeOneKind src.releaseFilesystems rt ri with
      | error e2 =>
        rw [hr] at h
        simp at h
      | ok triple2 =>
        obtain ⟨rm2, rs2, st2⟩ := triple2
        rw [hr] at h
        simp only [Except.ok.injEq, Prod.mk.injEq] at h
        obtain ⟨htr, -, -, -⟩ := h
        subst htr
        rcases List.mem_append.mp he with h3 | h3
        · by_cases hemp : di.isEmpty
          · rw [if_pos hemp] at h3
            simp at h3
          · rw [if_neg hemp] at h3
            have : e = Event.destroyCall n di := List.mem_singleton.mp h3
            subst this
            exact ⟨rfl, rfl⟩
        · by_cases hemp : ri.isEmpty
          · rw [if_pos hemp] at h3
            simp at h3
          · rw [if_neg hemp] at h3
            have : e = Event.releaseCall n ri := List.mem_singleton.mp h3
            subst this
            exact ⟨rfl, rfl⟩

theorem removeLoop_trace :
    ∀ (byTag : List (String × RemoveFilesystemParams))
      (sources : List (String × Option FilesystemSource))
      (parts : List (String × List FilesystemParams)) (tr : List Event)
      (rm rs : List String) (st : List EntityStatusArgs),
    removeLoop byTag sources parts = .ok (tr, rm, rs, st) →
    ∀ e ∈ tr, e.isScheduleEv = false ∧ e.isSetStatusEv = false := by
  intro byTag sources parts
  induction parts with
  | nil =>
    intro tr rm rs st h e he
    simp only [removeLoop] at h
    cases h
    simp at he
  | cons part rest ih =>
    obtain ⟨sourceName, fsps⟩ := part
    intro tr rm rs st h e he
    simp only [removeLoop] at h
    cases h1 : removeProcessSource byTag sourceName (joinLookup sources sourceName) fsps with
    | error e2 =>
      rw [h1] at h
      simp [Bind.bind, Except.bind] at h
    | ok q1 =>
      obtain ⟨tr1, rm1, rs1, st1⟩ := q1
      rw [h1] at h
      simp only [Bind.bind, Except.bind] at h
      cases h2 : removeLoop byTag sources rest with
      | error e2 =>
        rw [h2] at h
        simp at h
      | ok q2 =>
        obtain ⟨tr2, rm2, rs2, st2⟩ := q2
        rw [h2] at h
        simp only [Except.ok.injEq, Prod.mk.injEq] at h
        obtain ⟨htr, -, -, -⟩ := h
        subst htr
        rcases List.mem_append.mp he with h3 | h3
        · exact removeProcessSource_trace _ _ _ _ _ _ _ _ h1 e h3
        · exact ih tr2 rm2 rs2 st2 h2 e h3

theorem recordAttachments_trace :
    ∀ (rs : List (Option String)) (cache : List (MachineStorageId × FilesystemAttachment))
      (fas : List FilesystemAttachment) (tr : List Event)
      (cache2 : List (MachineStorageId × FilesystemAttachment)),
    recordAttachments cache fas rs = .ok (tr, cache2) →
    ∀ e ∈ tr, ∃ id, e = Event.removePendingFilesystemAttachmentEv id := by
  intro rs
  induction rs with
  | nil =>
    intro cache fas tr cache2 h e he
    cases fas <;> simp only [recordAttachments] at h <;> cases h <;> simp at he
  | cons r rs' ih =>
    intro cache fas tr cache2 h e he
    cases fas with
    | nil => simp [recordAttachments] at h
    | cons a fas' =>
      cases r with
      | some e0 => simp [recordAttachments] at h
      | none =>
        simp only [recordAttachments] at h
        cases hrec : recordAttachments (insertMSI cache
            { machineTag := machineTagString a.machine,
              attachmentTag := filesystemTagString a.filesystem } a) fas' rs' with
        | error e2 =>
          rw [hrec] at h
          simp at h
        | ok pr =>
          obtain ⟨tr2, c2⟩ := pr
          rw [hrec] at h
          simp only [Except.ok.injEq, Prod.mk.injEq] at h
          obtain ⟨htr, -⟩ := h
          subst htr
          rcases List.mem_cons.mp he with hh | ht
          · exact ⟨_, hh⟩
          · exact ih _ fas' tr2 c2 hrec e ht

theorem setFilesystemAttachmentInfo_trace :
    ∀ (ctx : Context) (fas : List FilesystemAttachment) (tr : List Event)
      (cache : List (MachineStorageId × FilesystemAttachment)),
    setFilesystemAttachmentInfo ctx fas = .ok (tr, cache) →
    ∀ e ∈ tr, e.isScheduleEv = false ∧ e.isSetStatusEv = false ∧ e.isProviderCall = false := by
  intro ctx fas tr cache h e he
  simp only [setFilesystemAttachmentInfo] at h
  by_cases hemp : fas.isEmpty
  · rw [if_pos hemp] at h
    simp only [Except.ok.injEq, Prod.mk.injEq] at h
    obtain ⟨htr, -⟩ := h
    subst htr
    simp at he
  · rw [if_neg hemp] at h
    cases hapi : ctx.setFilesystemAttachmentInfoApi (filesystemAttachmentsFromStorage fas) with
    | error e2 =>
      rw [hapi] at h
      simp at h
    | ok errs =>
      rw [hapi] at h
      simp only at h
      cases hrec : recordAttachments ctx.filesystemAttachments fas errs with
      | error e2 =>
        rw [hrec] at h
        simp [Bind.bind, Except.bind] at h
      | ok pr =>
        obtain ⟨tr2, c2⟩ := pr
        rw [hrec] at h
        simp only [Bind.bind, Except.bind, Except.ok.injEq, Prod.mk.injEq] at h
        obtain ⟨htr, -⟩ := h
        subst htr
        rcases List.mem_cons.mp he with hh | ht
        · subst hh
          exact ⟨rfl, rfl, rfl⟩
        · obtain ⟨id, hid⟩ := recordAttachments_trace errs ctx.filesystemAttachments fas tr2 c2 hrec e ht
          subst hid
          exact ⟨rfl, rfl, rfl⟩

/-- Claim C9: in every successful executor pass, status records and
reschedule entries accumulate during the per-source loop (no flush event
occurs in that prefix) and are then flushed exactly once — one
`scheduleOperations` event carrying the accumulated reschedule list
immediately followed by one `setStatus` event carrying the accumulated
statuses — after which no provider-source call and no further flush
occurs. -/
theorem claim_C9 :
    (∀ (ctx : Context) (ops : List CreateFilesystemOp) (out : CreateExecResult),
      createFilesystems ctx ops = .ok out →
      ∃ pre post, out.trace = pre ++
          [Event.scheduleOpsFs out.reschedule, Event.setStatusCall out.statuses] ++ post ∧
        (∀ e ∈ pre, e.isScheduleEv = false ∧ e.isSetStatusEv = false) ∧
        (∀ e ∈ post, e.isScheduleEv = false ∧ e.isSetStatusEv = false ∧
          e.isProviderCall = false)) ∧
    (∀ (ctx : Context) (ops : List AttachFilesystemOp) (out : AttachExecResult),
      attachFilesystems ctx ops = .ok out →
      ∃ pre post, out.trace = pre ++
          [Event.scheduleOpsAttach out.reschedule, Event.setStatusCall out.statuses] ++ post ∧
        (∀ e ∈ pre, e.isScheduleEv = false ∧ e.isSetStatusEv = false) ∧
        (∀ e ∈ post, e.isScheduleEv = false ∧ e.isSetStatusEv = false ∧
          e.isProviderCall = false)) ∧
    (∀ (ctx : Context) (ops : List DetachFilesystemOp) (out : DetachExecResult),
      detachFilesystems ctx ops = .ok out →
      ∃ pre post, out.trace = pre ++
          [Event.scheduleOpsAttach out.reschedule, Event.setStatusCall out.statuses] ++ post ∧
        (∀ e ∈ pre, e.isScheduleEv = false ∧ e.isSetStatusEv = false) ∧
        (∀ e ∈ post, e.isScheduleEv = false ∧ e.isSetStatusEv = false ∧
          e.isProviderCall = false)) ∧
    (∀ (ctx : Context) (ops : List RemoveFilesystemOp) (out : RemoveExecResult),
      removeFilesystems ctx ops = .ok out →
      ∃ pre post, out.trace = pre ++
          [Event.scheduleOpsFs out.reschedule, Event.setStatusCall out.statuses] ++ post ∧
        (∀ e ∈ pre, e.isScheduleEv = false ∧ e.isSetStatusEv = false) ∧
        (∀ e ∈ post, e.isScheduleEv = false ∧ e.isSetStatusEv = false ∧
          e.isProviderCall = false)) := by
  refine ⟨?_, ?_, ?_, ?_⟩
  · intro ctx ops out h
    obtain ⟨bySource, sources, tr, st, rk, fss, ptr, cache, -, hloop, hpub, hout⟩ :=
      createFilesystems_unfold ctx ops out h
    subst hout
    refine ⟨tr, ptr, by simp, ?_, ?_⟩
    · intro e he
      obtain ⟨m, ps, hcc⟩ := createLoop_trace sources bySource tr st rk fss hloop e he
      subst hcc
      exact ⟨rfl, rfl⟩
    · intro e he
      rcases publish_trace_events ctx fss ptr cache hpub e he with ⟨l, hl⟩ | ⟨m, hm⟩
      · subst hl
        exact ⟨rfl, rfl, rfl⟩
      · subst hm
        exact ⟨rfl, rfl, rfl⟩
  · intro ctx ops out h
    simp only [attachFilesystems] at h
    cases hpair : filesystemAttachmentParamsBySource ctx.storageDir
        (attachArgs ctx.storageDir ops) ctx.filesystems ctx.managedFilesystemSource
        ctx.registry with
    | error e =>
      rw [hpair] at h
      simp [Bind.bind, Except.bind] at h
    | ok pair =>
      obtain ⟨bySource, sources⟩ := pair
      rw [hpair] at h
      simp only [Bind.bind, Except.bind] at h
      cases hloop : attachLoop sources bySource with
      | error e =>
        rw [hloop] at h
        simp at h
      | ok quad =>
        obtain ⟨tr, st, rk, fas⟩ := quad
        rw [hloop] at h
        simp only at h
        cases hset : setFilesystemAttachmentInfo ctx fas with
        | error e =>
          rw [hset] at h
          simp at h
        | ok pr =>
          obtain ⟨ptr, cache⟩ := pr
          rw [hset] at h
          simp only [Except.ok.injEq] at h
          subst h
          refine ⟨tr, ptr, by simp, ?_, ?_⟩
          · exact attachLoop_trace sources bySource tr st rk fas hloop
          · exact setFilesystemAttachmentInfo_trace ctx fas ptr cache hset
  · intro ctx ops out h
    simp only [detachFilesystems] at h
    cases hpair : filesystemAttachmentParamsBySource ctx.storageDir
        (ops.map fun op => op.args) ctx.filesystems ctx.managedFilesystemSource
        ctx.registry with
    | error e =>
      rw [hpair] at h
      simp [Bind.bind, Except.bind] at h
    | ok pair =>
      obtain ⟨bySource, sources⟩ := pair
      rw [hpair] at h
      simp only [Bind.bind, Except.bind] at h
      cases hloop : detachLoop ctx.isCAASModel sources bySource with
      | error e =>
        rw [hloop] at h
        simp at h
      | ok quad =>
        obtain ⟨tr, st, rk, rm⟩ := quad
        rw [hloop] at h
        simp only at h
        cases hapi : ctx.removeAttachmentsApi rm with
        | some e =>
          rw [hapi] at h
          simp at h
        | none =>
          rw [hapi] at h
          simp only [Except.ok.injEq] at h
          subst h
          refine ⟨tr, [Event.removeAttachmentsCall rm], by simp, ?_, ?_⟩
          · exact detachLoop_trace ctx.isCAASModel sources bySource tr st rk rm hloop
          · intro e he
            have : e = Event.removeAttachmentsCall rm := List.mem_singleton.mp he
            subst this
            exact ⟨rfl, rfl, rfl⟩
  · intro ctx ops out h
    simp only [removeFilesystems] at h
    cases hrp : ctx.removeParamsApi (ops.map fun op => op.tag) with
    | error e =>
      rw [hrp] at h
      simp [Bind.bind, Except.bind] at h
    | ok rfps =>
      rw [hrp] at h
      simp only [Bind.bind, Except.bind] at h
      cases hbld : buildRemoveFsParams (ops.map fun op => op.tag) rfps with
      | error e =>
        rw [hbld] at h
        simp at h
      | ok filesystemParams =>
        rw [hbld] at h
        simp only at h
        cases hpair : filesystemParamsBySource ctx.storageDir filesystemParams
            ctx.managedFilesystemSource ctx.registry with
        | error e =>
          rw [hpair] at h
          simp at h
        | ok pair =>
          obtain ⟨bySource, sources⟩ := pair
          rw [hpair] at h
          simp only at h
          cases hloop : removeLoop (removeParamsByTag (ops.map fun op => op.tag) rfps)
              sources bySource with
          | error e =>
            rw [hloop] at h
            simp at h
          | ok quad =>
            obtain ⟨tr, rm, rs, st⟩ := quad
            rw [hloop] at h
            simp only at h
            cases hapi : ctx.removeApi rm with
            | some e =>
              rw [hapi] at h
              simp at h
            | none =>
              rw [hapi] at h
              simp only [Except.ok.injEq] at h
              subst h
              refine ⟨tr, [Event.removeEntitiesCall rm], by simp, ?_, ?_⟩
              · exact removeLoop_trace _ sources bySource tr rm rs st hloop
              · intro e he
                have : e = Event.removeEntitiesCall rm := List.mem_singleton.mp he
                subst this
                exact ⟨rfl, rfl, rfl⟩

theorem claim_C9_witness :
    ∃ pre post, outC9.trace = pre ++
        [Event.scheduleOpsFs outC9.reschedule, Event.setStatusCall outC9.statuses] ++ post ∧
      (∀ e ∈ pre, e.isScheduleEv = false ∧ e.isSetStatusEv = false) ∧
      (∀ e ∈ post, e.isScheduleEv = false ∧ e.isSetStatusEv = false ∧
        e.isProviderCall = false) :=
  claim_C9.1 baseContext [] outC9 (by rfl)

end StorageProvisioner
